import Mathlib

/-! # myiosss: socket statistics for Apple platforms

Shallow embedding of the socket pipeline of `src/sockets.c`, `src/main.c`
(state mapping, address rendering, descriptor decoding, inclusion filter,
duplicate suppression, summary counters) and of the port mapper of
`src/ss_proc.c` (port recovery, port map), followed by the properties proved
about them.

Conventions of the embedding:
* C enums are inductive types whose constructors keep the C names;
* C strings (NUL-terminated `char` buffers) are `String`s, `strcmp(a, b) == 0`
  is equality;
* the singly linked list threaded through `next` is a `List`, head first;
* `uint16_t` / `uint32_t` values are `Nat`s, reduced modulo `2 ^ 16` / `2 ^ 32`
  where the C arithmetic can wrap.
-/

namespace Myiosss

/-! ## `ss.h` -/

/-- Size of the address buffers `local_addr` and `remote_addr`. -/
def MAX_ADDR_LEN : Nat := 128

/-- Size of the `proc_name` buffer. -/
def MAX_PROC_NAME : Nat := 256

/-- Size of the `unix_path` buffer. -/
def MAX_PATH_LEN : Nat := 1024

/-- Socket family types (`ss_family_t`). -/
inductive ss_family_t where
  | SS_FAMILY_INET
  | SS_FAMILY_INET6
  | SS_FAMILY_UNIX
  | SS_FAMILY_UNKNOWN
  deriving DecidableEq, Repr

/-- Socket protocol types (`ss_proto_t`). -/
inductive ss_proto_t where
  | SS_PROTO_TCP
  | SS_PROTO_UDP
  | SS_PROTO_UNIX_STREAM
  | SS_PROTO_UNIX_DGRAM
  | SS_PROTO_UNKNOWN
  deriving DecidableEq, Repr

/-- TCP connection states (`ss_tcp_state_t`), in declaration order:
`SS_TCP_UNKNOWN = 0`, then `SS_TCP_CLOSED = 1`, and so on. -/
inductive ss_tcp_state_t where
  | SS_TCP_UNKNOWN
  | SS_TCP_CLOSED
  | SS_TCP_LISTEN
  | SS_TCP_SYN_SENT
  | SS_TCP_SYN_RECV
  | SS_TCP_ESTABLISHED
  | SS_TCP_CLOSE_WAIT
  | SS_TCP_FIN_WAIT1
  | SS_TCP_CLOSING
  | SS_TCP_LAST_ACK
  | SS_TCP_FIN_WAIT2
  | SS_TCP_TIME_WAIT
  deriving DecidableEq, Repr

open ss_family_t ss_proto_t ss_tcp_state_t

/-- Integer value of a `ss_tcp_state_t` enumerator. -/
def ss_tcp_state_t.toInt : ss_tcp_state_t → Int
  | SS_TCP_UNKNOWN => 0
  | SS_TCP_CLOSED => 1
  | SS_TCP_LISTEN => 2
  | SS_TCP_SYN_SENT => 3
  | SS_TCP_SYN_RECV => 4
  | SS_TCP_ESTABLISHED => 5
  | SS_TCP_CLOSE_WAIT => 6
  | SS_TCP_FIN_WAIT1 => 7
  | SS_TCP_CLOSING => 8
  | SS_TCP_LAST_ACK => 9
  | SS_TCP_FIN_WAIT2 => 10
  | SS_TCP_TIME_WAIT => 11

/-- Socket information structure (`ss_sock_info_t`); the `next` pointer is the
tail of the list that holds the record. -/
structure ss_sock_info_t where
  family : ss_family_t
  protocol : ss_proto_t
  state : ss_tcp_state_t
  local_addr : String
  local_port : Nat
  remote_addr : String
  remote_port : Nat
  unix_path : String
  recv_queue : Nat
  send_queue : Nat
  pid : Int
  fd : Int
  proc_name : String
  uid : Nat
  inode : Nat
  deriving DecidableEq, Repr

/-- Command line options (`ss_options_t`). -/
structure ss_options_t where
  show_tcp : Bool
  show_udp : Bool
  show_unix : Bool
  show_listening : Bool
  show_all : Bool
  numeric : Bool
  show_process : Bool
  extended : Bool
  summary : Bool
  ipv4_only : Bool
  ipv6_only : Bool
  version : Bool
  help : Bool
  deriving DecidableEq, Repr

/-- Statistics summary (`ss_stats_t`), all counters `uint32_t`. -/
structure ss_stats_t where
  tcp_total : Nat
  tcp_established : Nat
  tcp_syn_sent : Nat
  tcp_syn_recv : Nat
  tcp_fin_wait1 : Nat
  tcp_fin_wait2 : Nat
  tcp_time_wait : Nat
  tcp_close_wait : Nat
  tcp_last_ack : Nat
  tcp_listen : Nat
  tcp_closing : Nat
  tcp_closed : Nat
  udp_total : Nat
  unix_stream_total : Nat
  unix_dgram_total : Nat
  deriving DecidableEq, Repr

/-- The value of `ss_sock_info_t sock = {0}`. -/
def sock_zero : ss_sock_info_t :=
  { family := SS_FAMILY_INET, protocol := SS_PROTO_TCP, state := SS_TCP_UNKNOWN,
    local_addr := "", local_port := 0, remote_addr := "", remote_port := 0,
    unix_path := "", recv_queue := 0, send_queue := 0, pid := 0, fd := 0,
    proc_name := "", uid := 0, inode := 0 }

/-- The value of `ss_options_t opts = {0}`. -/
def opts_zero : ss_options_t :=
  { show_tcp := false, show_udp := false, show_unix := false, show_listening := false,
    show_all := false, numeric := false, show_process := false, extended := false,
    summary := false, ipv4_only := false, ipv6_only := false, version := false,
    help := false }

/-- The value of `ss_stats_t stats = {0}`. -/
def stats_zero : ss_stats_t :=
  { tcp_total := 0, tcp_established := 0, tcp_syn_sent := 0, tcp_syn_recv := 0,
    tcp_fin_wait1 := 0, tcp_fin_wait2 := 0, tcp_time_wait := 0, tcp_close_wait := 0,
    tcp_last_ack := 0, tcp_listen := 0, tcp_closing := 0, tcp_closed := 0,
    udp_total := 0, unix_stream_total := 0, unix_dgram_total := 0 }

/-! ## `sockets.c`: Darwin TCP states -/

def TCPS_CLOSED : Int := 0
def TCPS_LISTEN : Int := 1
def TCPS_SYN_SENT : Int := 2
def TCPS_SYN_RECEIVED : Int := 3
def TCPS_ESTABLISHED : Int := 4
def TCPS_CLOSE_WAIT : Int := 5
def TCPS_FIN_WAIT_1 : Int := 6
def TCPS_CLOSING : Int := 7
def TCPS_LAST_ACK : Int := 8
def TCPS_FIN_WAIT_2 : Int := 9
def TCPS_TIME_WAIT : Int := 10

/-- Convert a Darwin TCP state code to the state enum: the `switch` of
`darwin_to_ss_state`, one arm per `case` label, `default` last. -/
def darwin_to_ss_state (state : Int) : ss_tcp_state_t :=
  if state = TCPS_CLOSED then SS_TCP_CLOSED
  else if state = TCPS_LISTEN then SS_TCP_LISTEN
  else if state = TCPS_SYN_SENT then SS_TCP_SYN_SENT
  else if state = TCPS_SYN_RECEIVED then SS_TCP_SYN_RECV
  else if state = TCPS_ESTABLISHED then SS_TCP_ESTABLISHED
  else if state = TCPS_CLOSE_WAIT then SS_TCP_CLOSE_WAIT
  else if state = TCPS_FIN_WAIT_1 then SS_TCP_FIN_WAIT1
  else if state = TCPS_CLOSING then SS_TCP_CLOSING
  else if state = TCPS_LAST_ACK then SS_TCP_LAST_ACK
  else if state = TCPS_FIN_WAIT_2 then SS_TCP_FIN_WAIT2
  else if state = TCPS_TIME_WAIT then SS_TCP_TIME_WAIT
  else SS_TCP_UNKNOWN

/-! ## `sockets.c`: the inclusion filter -/

/-- Check if a socket should be included based on the options
(`should_include`): every `return false` of the C function is one arm, in
source order, and the final arm is `return true`. -/
def should_include (sock : ss_sock_info_t) (opts : ss_options_t) : Bool :=
  -- Filter by protocol
  if sock.protocol = SS_PROTO_TCP ∧ opts.show_tcp = false then false
  else if sock.protocol = SS_PROTO_UDP ∧ opts.show_udp = false then false
  else if (sock.protocol = SS_PROTO_UNIX_STREAM ∨ sock.protocol = SS_PROTO_UNIX_DGRAM)
      ∧ opts.show_unix = false then false
  -- Filter by listening state
  else if opts.show_listening = true
      ∧ sock.protocol = SS_PROTO_TCP ∧ sock.state ≠ SS_TCP_LISTEN then false
  else if opts.show_listening = true
      ∧ sock.protocol = SS_PROTO_UDP ∧ sock.remote_port ≠ 0 then false
  -- If not showing all, filter to established/listening only
  else if (opts.show_all = false ∧ opts.show_listening = false
      ∧ sock.protocol = SS_PROTO_TCP)
      ∧ (sock.state ≠ SS_TCP_ESTABLISHED ∧ sock.state ≠ SS_TCP_LISTEN) then false
  -- Filter by IP version
  else if opts.ipv4_only = true ∧ sock.family ≠ SS_FAMILY_INET then false
  else if opts.ipv6_only = true ∧ sock.family ≠ SS_FAMILY_INET6 then false
  else true

/-- The block of `should_include` under `Filter by protocol` (three `if`s):
`true` when none of them returns. -/
def protocol_gate (sock : ss_sock_info_t) (opts : ss_options_t) : Bool :=
  if sock.protocol = SS_PROTO_TCP ∧ opts.show_tcp = false then false
  else if sock.protocol = SS_PROTO_UDP ∧ opts.show_udp = false then false
  else if (sock.protocol = SS_PROTO_UNIX_STREAM ∨ sock.protocol = SS_PROTO_UNIX_DGRAM)
      ∧ opts.show_unix = false then false
  else true

/-- The block of `should_include` under `Filter by listening state`. -/
def listening_gate (sock : ss_sock_info_t) (opts : ss_options_t) : Bool :=
  if opts.show_listening = true then
    if sock.protocol = SS_PROTO_TCP ∧ sock.state ≠ SS_TCP_LISTEN then false
    else if sock.protocol = SS_PROTO_UDP ∧ sock.remote_port ≠ 0 then false
    else true
  else true

/-- The block of `should_include` under
`If not showing all, filter to established/listening only`. -/
def default_state_gate (sock : ss_sock_info_t) (opts : ss_options_t) : Bool :=
  if opts.show_all = false ∧ opts.show_listening = false
      ∧ sock.protocol = SS_PROTO_TCP then
    if sock.state ≠ SS_TCP_ESTABLISHED ∧ sock.state ≠ SS_TCP_LISTEN then false
    else true
  else true

/-- The block of `should_include` under `Filter by IP version` (two `if`s). -/
def family_gate (sock : ss_sock_info_t) (opts : ss_options_t) : Bool :=
  if opts.ipv4_only = true ∧ sock.family ≠ SS_FAMILY_INET then false
  else if opts.ipv6_only = true ∧ sock.family ≠ SS_FAMILY_INET6 then false
  else true

/-- The four gates of `should_include`, numbered in source order. -/
def gate (i : Fin 4) (sock : ss_sock_info_t) (opts : ss_options_t) : Bool :=
  match i with
  | 0 => protocol_gate sock opts
  | 1 => listening_gate sock opts
  | 2 => default_state_gate sock opts
  | 3 => family_gate sock opts

/-- Evaluate the gates in the given order, rejecting at the first one that
fails (the remaining gates are then not looked at). -/
def eval_gates (order : List (Fin 4)) (sock : ss_sock_info_t) (opts : ss_options_t) : Bool :=
  match order with
  | [] => true
  | i :: rest => if gate i sock opts = false then false else eval_gates rest sock opts

/-! ## `main.c`: default protocol substitution -/

/-- The statement of `main` under `Default: show TCP and UDP if nothing
specified`. -/
def main_default_protocols (opts : ss_options_t) : ss_options_t :=
  if opts.show_tcp = false ∧ opts.show_udp = false ∧ opts.show_unix = false then
    { opts with show_tcp := true, show_udp := true }
  else opts

/-- The configuration the specification compares the default substitution
with: TCP and UDP explicitly set and UNIX unset, every other option kept. -/
def explicit_tcp_udp (opts : ss_options_t) : ss_options_t :=
  { opts with show_tcp := true, show_udp := true, show_unix := false }

/-! ## `sockets.c`: address rendering -/

/-- Size of the IPv4 text buffer `ip_str` (`INET_ADDRSTRLEN`). -/
def INET_ADDRSTRLEN : Nat := 16

/-- Size of the IPv6 text buffer `ip_str` (`INET6_ADDRSTRLEN`). -/
def INET6_ADDRSTRLEN : Nat := 46

/-- The wildcard IPv4 address `INADDR_ANY`. -/
def INADDR_ANY : Nat := 0

/-- An IPv4 address (`struct in_addr`): its four octets in memory order, which
is network order, so `o0.o1.o2.o3` is the dotted quad. -/
structure in_addr where
  o0 : Fin 256
  o1 : Fin 256
  o2 : Fin 256
  o3 : Fin 256
  deriving DecidableEq, Repr

/-- The 32-bit word `s_addr` as a little-endian host loads it from the four
octets; it is zero exactly when every octet is zero. -/
def in_addr.s_addr (a : in_addr) : Nat :=
  a.o0.val + 256 * a.o1.val + 65536 * a.o2.val + 16777216 * a.o3.val

/-- An IPv6 address (`struct in6_addr`): sixteen octets. -/
structure in6_addr where
  s6_addr : Fin 16 → Fin 256

/-- The test `IN6_IS_ADDR_UNSPECIFIED`: all sixteen octets are zero. -/
def IN6_IS_ADDR_UNSPECIFIED (a : in6_addr) : Bool :=
  decide (∀ i : Fin 16, a.s6_addr i = 0)

/-- The conversion `%u` of `printf`: the decimal text of an unsigned value. -/
def fmt_u (n : Nat) : String := Nat.repr n

/-- The call `inet_ntop(AF_INET, addr, ...)` of the C library: the dotted quad
of the four octets. With octets below 256 the text has at most 15 characters
and fits the `INET_ADDRSTRLEN` buffer. -/
def inet_ntop4 (a : in_addr) : String :=
  fmt_u a.o0.val ++ "." ++ fmt_u a.o1.val ++ "." ++ fmt_u a.o2.val ++ "." ++ fmt_u a.o3.val

/-- What `snprintf(buf, buflen, ...)` leaves in `buf` when the formatted text
is `text`: at most `buflen - 1` characters of it, then the terminator. -/
def c_snprintf (buflen : Nat) (text : String) : String :=
  String.mk (text.data.take (buflen - 1))

/-- What `strncpy(dst, src, n)` leaves in a zero-filled `dst` of more than `n`
bytes: at most `n` characters of `src`. -/
def c_strncpy (n : Nat) (src : String) : String :=
  String.mk (src.data.take n)

/-- Format an IPv4 address with port (`format_addr_v4`); the result is the
content of `buf`. -/
def format_addr_v4 (addr : in_addr) (port : Nat) (buflen : Nat) : String :=
  let ip_str : String := if addr.s_addr = INADDR_ANY then "*" else inet_ntop4 addr
  if port = 0 then c_snprintf buflen (ip_str ++ ":*")
  else c_snprintf buflen (ip_str ++ ":" ++ fmt_u port)

/-- Format an IPv6 address with port (`format_addr_v6`); the result is the
content of `buf`. The C library call `inet_ntop(AF_INET6, ...)` is the
parameter `inet_ntop6`. -/
def format_addr_v6 (inet_ntop6 : in6_addr → String) (addr : in6_addr) (port : Nat)
    (buflen : Nat) : String :=
  let ip_str : String := if IN6_IS_ADDR_UNSPECIFIED addr = true then "*" else inet_ntop6 addr
  if port = 0 then c_snprintf buflen ("[" ++ ip_str ++ "]:*")
  else c_snprintf buflen ("[" ++ ip_str ++ "]:" ++ fmt_u port)

/-- The host text that `format_addr_v6` puts between the brackets. -/
def host_text_v6 (inet_ntop6 : in6_addr → String) (addr : in6_addr) : String :=
  if IN6_IS_ADDR_UNSPECIFIED addr = true then "*" else inet_ntop6 addr

/-- The text `s` ends in the text `t`. -/
def ends_in (s t : String) : Prop := t.data <:+ s.data

instance (s t : String) : Decidable (ends_in s t) :=
  inferInstanceAs (Decidable (t.data <:+ s.data))

/-! ## `sockets.c`: the record list -/

/-- Add a socket to the list (`add_to_list`): a copy of `sock` becomes the new
head. `malloc_ok` tells whether `malloc` returned a block; when it did not the
list is returned as it was. -/
def add_to_list (malloc_ok : Bool) (list : List ss_sock_info_t) (sock : ss_sock_info_t) :
    List ss_sock_info_t :=
  if malloc_ok = false then list else sock :: list

/-- Check if a socket already exists in the list (`socket_exists`). -/
def socket_exists : List ss_sock_info_t → ss_sock_info_t → Bool
  | [], _ => false
  | s :: rest, sock =>
    if s.protocol = sock.protocol ∧
       s.family = sock.family ∧
       s.local_port = sock.local_port ∧
       s.remote_port = sock.remote_port ∧
       s.local_addr = sock.local_addr ∧
       s.remote_addr = sock.remote_addr then true
    else socket_exists rest sock

/-- A record that the decode part of the loop body of `collect_process_sockets`
has produced for one descriptor, with what the rest of the body reads from its
surroundings: the content of the `proc_name` buffer once `get_proc_name` has
run, and whether `malloc` in `add_to_list` returns a block. -/
structure decoded_fd where
  sock : ss_sock_info_t
  proc_name : String
  malloc_ok : Bool

/-- The rest of the loop body of `collect_process_sockets` once a record is
decoded: the filter, the duplicate check, the process name, the insertion. Each
`continue` leaves the list as it was. -/
def collect_record (opts : ss_options_t) (list : List ss_sock_info_t) (d : decoded_fd) :
    List ss_sock_info_t :=
  if should_include d.sock opts = false then list
  else if socket_exists list d.sock = true then list
  else
    let sock : ss_sock_info_t :=
      if opts.show_process = true then
        { d.sock with proc_name := c_strncpy (MAX_PROC_NAME - 1) d.proc_name }
      else d.sock
    add_to_list d.malloc_ok list sock

/-- The list after the loop bodies have handled the decoded records `ds` one
after the other, over any number of calls of `collect_process_sockets`: the
list is threaded through them all. -/
def collect_records (opts : ss_options_t) (list : List ss_sock_info_t) (ds : List decoded_fd) :
    List ss_sock_info_t :=
  match ds with
  | [] => list
  | d :: rest => collect_records opts (collect_record opts list d) rest

/-- The identity fields that `socket_exists` compares. -/
def identity_key (s : ss_sock_info_t) : ss_proto_t × ss_family_t × Nat × Nat × String × String :=
  (s.protocol, s.family, s.local_port, s.remote_port, s.local_addr, s.remote_addr)

/-! ## `main.c`: summary counters -/

/-- The increment `x++` of a `uint32_t` counter. -/
def inc32 (x : Nat) : Nat := (x + 1) % 2 ^ 32

/-- The body of the loop of `calculate_stats`: the two nested `switch`es. -/
def calculate_stats_step (stats : ss_stats_t) (s : ss_sock_info_t) : ss_stats_t :=
  match s.protocol with
  | SS_PROTO_TCP =>
    let stats := { stats with tcp_total := inc32 stats.tcp_total }
    match s.state with
    | SS_TCP_ESTABLISHED => { stats with tcp_established := inc32 stats.tcp_established }
    | SS_TCP_SYN_SENT => { stats with tcp_syn_sent := inc32 stats.tcp_syn_sent }
    | SS_TCP_SYN_RECV => { stats with tcp_syn_recv := inc32 stats.tcp_syn_recv }
    | SS_TCP_FIN_WAIT1 => { stats with tcp_fin_wait1 := inc32 stats.tcp_fin_wait1 }
    | SS_TCP_FIN_WAIT2 => { stats with tcp_fin_wait2 := inc32 stats.tcp_fin_wait2 }
    | SS_TCP_TIME_WAIT => { stats with tcp_time_wait := inc32 stats.tcp_time_wait }
    | SS_TCP_CLOSE_WAIT => { stats with tcp_close_wait := inc32 stats.tcp_close_wait }
    | SS_TCP_LAST_ACK => { stats with tcp_last_ack := inc32 stats.tcp_last_ack }
    | SS_TCP_LISTEN => { stats with tcp_listen := inc32 stats.tcp_listen }
    | SS_TCP_CLOSING => { stats with tcp_closing := inc32 stats.tcp_closing }
    | SS_TCP_CLOSED => { stats with tcp_closed := inc32 stats.tcp_closed }
    | SS_TCP_UNKNOWN => stats
  | SS_PROTO_UDP => { stats with udp_total := inc32 stats.udp_total }
  | SS_PROTO_UNIX_STREAM => { stats with unix_stream_total := inc32 stats.unix_stream_total }
  | SS_PROTO_UNIX_DGRAM => { stats with unix_dgram_total := inc32 stats.unix_dgram_total }
  | SS_PROTO_UNKNOWN => stats

/-- The loop of `calculate_stats` over the list, from its head. -/
def calculate_stats (list : List ss_sock_info_t) (stats : ss_stats_t) : ss_stats_t :=
  match list with
  | [] => stats
  | s :: rest => calculate_stats rest (calculate_stats_step stats s)

/-- Number of records of `list` with the given protocol. -/
def count_proto (p : ss_proto_t) (list : List ss_sock_info_t) : Nat :=
  list.countP (fun s => decide (s.protocol = p))

/-- Number of TCP records of `list` in the given state. -/
def count_tcp_state (st : ss_tcp_state_t) (list : List ss_sock_info_t) : Nat :=
  list.countP (fun s => decide (s.protocol = SS_PROTO_TCP ∧ s.state = st))

/-! ## Sample records and configurations -/

/-- A TCP record in state ESTABLISHED, used at the witnesses. -/
def tcp_established_record : ss_sock_info_t :=
  { sock_zero with family := SS_FAMILY_INET, protocol := SS_PROTO_TCP,
                   state := SS_TCP_ESTABLISHED }

/-- A UDP record, used at the witnesses. -/
def udp_record : ss_sock_info_t :=
  { sock_zero with family := SS_FAMILY_INET, protocol := SS_PROTO_UDP,
                   state := SS_TCP_UNKNOWN }

/-- A UNIX stream record, used at the witnesses. -/
def unix_stream_record : ss_sock_info_t :=
  { sock_zero with family := SS_FAMILY_UNIX, protocol := SS_PROTO_UNIX_STREAM,
                   state := SS_TCP_UNKNOWN }

/-- The counters the specification describes for a record list: the number of
records of each protocol and, for TCP, the number of TCP records in each of the
eleven states. -/
def count_stats (list : List ss_sock_info_t) : ss_stats_t :=
  { tcp_total := count_proto SS_PROTO_TCP list,
    tcp_established := count_tcp_state SS_TCP_ESTABLISHED list,
    tcp_syn_sent := count_tcp_state SS_TCP_SYN_SENT list,
    tcp_syn_recv := count_tcp_state SS_TCP_SYN_RECV list,
    tcp_fin_wait1 := count_tcp_state SS_TCP_FIN_WAIT1 list,
    tcp_fin_wait2 := count_tcp_state SS_TCP_FIN_WAIT2 list,
    tcp_time_wait := count_tcp_state SS_TCP_TIME_WAIT list,
    tcp_close_wait := count_tcp_state SS_TCP_CLOSE_WAIT list,
    tcp_last_ack := count_tcp_state SS_TCP_LAST_ACK list,
    tcp_listen := count_tcp_state SS_TCP_LISTEN list,
    tcp_closing := count_tcp_state SS_TCP_CLOSING list,
    tcp_closed := count_tcp_state SS_TCP_CLOSED list,
    udp_total := count_proto SS_PROTO_UDP list,
    unix_stream_total := count_proto SS_PROTO_UNIX_STREAM list,
    unix_dgram_total := count_proto SS_PROTO_UNIX_DGRAM list }

/-- Counter-wise sum of two summaries in `uint32_t` arithmetic. -/
def stats_add32 (a b : ss_stats_t) : ss_stats_t :=
  { tcp_total := (a.tcp_total + b.tcp_total) % 2 ^ 32,
    tcp_established := (a.tcp_established + b.tcp_established) % 2 ^ 32,
    tcp_syn_sent := (a.tcp_syn_sent + b.tcp_syn_sent) % 2 ^ 32,
    tcp_syn_recv := (a.tcp_syn_recv + b.tcp_syn_recv) % 2 ^ 32,
    tcp_fin_wait1 := (a.tcp_fin_wait1 + b.tcp_fin_wait1) % 2 ^ 32,
    tcp_fin_wait2 := (a.tcp_fin_wait2 + b.tcp_fin_wait2) % 2 ^ 32,
    tcp_time_wait := (a.tcp_time_wait + b.tcp_time_wait) % 2 ^ 32,
    tcp_close_wait := (a.tcp_close_wait + b.tcp_close_wait) % 2 ^ 32,
    tcp_last_ack := (a.tcp_last_ack + b.tcp_last_ack) % 2 ^ 32,
    tcp_listen := (a.tcp_listen + b.tcp_listen) % 2 ^ 32,
    tcp_closing := (a.tcp_closing + b.tcp_closing) % 2 ^ 32,
    tcp_closed := (a.tcp_closed + b.tcp_closed) % 2 ^ 32,
    udp_total := (a.udp_total + b.udp_total) % 2 ^ 32,
    unix_stream_total := (a.unix_stream_total + b.unix_stream_total) % 2 ^ 32,
    unix_dgram_total := (a.unix_dgram_total + b.unix_dgram_total) % 2 ^ 32 }

/-- Every counter of the summary is a `uint32_t` value. -/
def stats_in_range (a : ss_stats_t) : Prop :=
  a.tcp_total < 2 ^ 32 ∧ a.tcp_established < 2 ^ 32 ∧ a.tcp_syn_sent < 2 ^ 32 ∧
  a.tcp_syn_recv < 2 ^ 32 ∧ a.tcp_fin_wait1 < 2 ^ 32 ∧ a.tcp_fin_wait2 < 2 ^ 32 ∧
  a.tcp_time_wait < 2 ^ 32 ∧ a.tcp_close_wait < 2 ^ 32 ∧ a.tcp_last_ack < 2 ^ 32 ∧
  a.tcp_listen < 2 ^ 32 ∧ a.tcp_closing < 2 ^ 32 ∧ a.tcp_closed < 2 ^ 32 ∧
  a.udp_total < 2 ^ 32 ∧ a.unix_stream_total < 2 ^ 32 ∧ a.unix_dgram_total < 2 ^ 32

/-- A TCP record in state LISTEN, used at the witnesses. -/
def tcp_listen_record : ss_sock_info_t :=
  { sock_zero with family := SS_FAMILY_INET, protocol := SS_PROTO_TCP,
                   state := SS_TCP_LISTEN }

/-- The result set of the summary scenario: three ESTABLISHED and one LISTEN TCP
records and one UDP record. -/
def summary_scenario : List ss_sock_info_t :=
  [tcp_established_record, udp_record, tcp_established_record, tcp_listen_record,
   tcp_established_record]

/-- The first record of the scan, in scan order, that passes the filter and has
the identity key `k`. -/
def first_candidate (opts : ss_options_t)
    (k : ss_proto_t × ss_family_t × Nat × Nat × String × String) (ds : List decoded_fd) :
    Option decoded_fd :=
  ds.find? (fun d => should_include d.sock opts && decide (identity_key d.sock = k))

/-- The pid of the entry of `list` with identity key `k` that is nearest to the
head, if there is one. -/
def owner_pid (k : ss_proto_t × ss_family_t × Nat × Nat × String × String)
    (list : List ss_sock_info_t) : Option Int :=
  (list.find? (fun e => decide (identity_key e = k))).map (fun e => e.pid)

/-- The TCP connection `10.0.0.5:51000 -> 10.0.0.9:443`, ESTABLISHED, as decoded
from a descriptor of process `pid`. -/
def shared_connection (pid : Int) : ss_sock_info_t :=
  { sock_zero with
    pid := pid, family := SS_FAMILY_INET, protocol := SS_PROTO_TCP,
    state := darwin_to_ss_state TCPS_ESTABLISHED,
    local_addr := format_addr_v4 ⟨10, 0, 0, 5⟩ 51000 MAX_ADDR_LEN,
    remote_addr := format_addr_v4 ⟨10, 0, 0, 9⟩ 443 MAX_ADDR_LEN,
    local_port := 51000, remote_port := 443 }

/-- Two processes, 100 and then 200, each holding a descriptor of the same TCP
connection. -/
def shared_connection_scan : List decoded_fd :=
  [{ sock := shared_connection 100, proc_name := "", malloc_ok := true },
   { sock := shared_connection 200, proc_name := "", malloc_ok := true }]

/-! ## `sockets.c`: decoding a descriptor -/

/-- Address family of UNIX domain sockets (system header value on Darwin). -/
def AF_UNIX : Int := 1

/-- Address family of IPv4 sockets (system header value on Darwin). -/
def AF_INET : Int := 2

/-- Address family of IPv6 sockets (system header value on Darwin). -/
def AF_INET6 : Int := 30

/-- Socket type of stream sockets (system header value). -/
def SOCK_STREAM : Int := 1

/-- Transport protocol number of TCP. -/
def IPPROTO_TCP : Int := 6

/-- Transport protocol number of UDP. -/
def IPPROTO_UDP : Int := 17

/-- Descriptor type tag of sockets (`PROX_FDTYPE_SOCKET`). -/
def PROX_FDTYPE_SOCKET : Nat := 2

/-- The call `ntohs(x)` on a little-endian host for an `int` argument: the
argument is converted to `uint16_t` and its two bytes are swapped. -/
def ntohs (x : Int) : Nat :=
  let v : Nat := (x % 65536).toNat
  (v % 256) * 256 + v / 256

/-- The fields of the metadata buffer (`struct socket_fdinfo`, seen through
`si->psi`) that `collect_process_sockets` reads. The members of the unions
`soi_proto` and `ina_46` are separate fields here, each with whatever the
buffer holds at its place. `sun_path` is the C string that starts at
`unsi_addr.ua_sun.sun_path`. -/
structure socket_fdinfo where
  soi_family : Int
  soi_type : Int
  soi_protocol : Int
  tcpsi_state : Int
  insi_laddr4 : in_addr
  insi_faddr4 : in_addr
  insi_laddr6 : in6_addr
  insi_faddr6 : in6_addr
  insi_lport : Int
  insi_fport : Int
  soi_rcv_sbi_cc : Nat
  soi_snd_sbi_cc : Nat
  sun_path : String
  unsi_conn_so : Nat

/-- The part of the loop body of `collect_process_sockets` from
`ss_sock_info_t sock = {0}` to the end of the family branches: the record
decoded from the buffer, or `none` where the body says `continue`. -/
def decode_socket (inet_ntop6 : in6_addr → String) (pid : Int) (si : socket_fdinfo) :
    Option ss_sock_info_t :=
  let sock : ss_sock_info_t := { sock_zero with pid := pid }
  let family := si.soi_family
  let soi_type := si.soi_type
  let proto := si.soi_protocol
  if family = AF_INET ∨ family = AF_INET6 then
    let sock : ss_sock_info_t :=
      { sock with family := if family = AF_INET then SS_FAMILY_INET else SS_FAMILY_INET6 }
    let typed : Option ss_sock_info_t :=
      if proto = IPPROTO_TCP then
        some { sock with protocol := SS_PROTO_TCP,
                         state := darwin_to_ss_state si.tcpsi_state }
      else if proto = IPPROTO_UDP then
        some { sock with protocol := SS_PROTO_UDP, state := SS_TCP_UNKNOWN }
      else none
    match typed with
    | none => none
    | some sock =>
      let lport := ntohs si.insi_lport
      let fport := ntohs si.insi_fport
      let sock : ss_sock_info_t :=
        if family = AF_INET then
          { sock with
            local_addr := format_addr_v4 si.insi_laddr4 lport MAX_ADDR_LEN,
            remote_addr := format_addr_v4 si.insi_faddr4 fport MAX_ADDR_LEN,
            local_port := lport, remote_port := fport }
        else
          { sock with
            local_addr := format_addr_v6 inet_ntop6 si.insi_laddr6 lport MAX_ADDR_LEN,
            remote_addr := format_addr_v6 inet_ntop6 si.insi_faddr6 fport MAX_ADDR_LEN,
            local_port := lport, remote_port := fport }
      some { sock with recv_queue := si.soi_rcv_sbi_cc, send_queue := si.soi_snd_sbi_cc }
  else if family = AF_UNIX then
    let sock : ss_sock_info_t :=
      { sock with
        family := SS_FAMILY_UNIX,
        protocol := if soi_type = SOCK_STREAM then SS_PROTO_UNIX_STREAM
                    else SS_PROTO_UNIX_DGRAM,
        state := SS_TCP_UNKNOWN }
    let sock : ss_sock_info_t :=
      if si.sun_path ≠ "" then
        { sock with unix_path := c_strncpy (MAX_PATH_LEN - 1) si.sun_path,
                    local_addr := c_strncpy (MAX_ADDR_LEN - 1) si.sun_path }
      else { sock with local_addr := "*" }
    let sock : ss_sock_info_t :=
      if si.unsi_conn_so ≠ 0 then { sock with remote_addr := "[connected]" }
      else { sock with remote_addr := "*" }
    some { sock with recv_queue := si.soi_rcv_sbi_cc, send_queue := si.soi_snd_sbi_cc }
  else none

/-- One entry of the descriptor list as the loop body meets it: the entry
itself (`proc_fd`, `proc_fdtype`), what `proc_pidfdinfo` returns for it (`ret`)
and leaves in `si_buf` (`si`), and whether `malloc` in `add_to_list` returns a
block if the record gets that far. -/
structure fd_entry where
  proc_fd : Int
  proc_fdtype : Nat
  ret : Int
  si : socket_fdinfo
  malloc_ok : Bool

/-- The body of the descriptor loop of `collect_process_sockets`. -/
def collect_fd (inet_ntop6 : in6_addr → String) (opts : ss_options_t) (pid : Int)
    (proc_name : String) (list : List ss_sock_info_t) (e : fd_entry) : List ss_sock_info_t :=
  if e.proc_fdtype ≠ PROX_FDTYPE_SOCKET then list
  else if e.ret ≤ 0 then list
  else
    match decode_socket inet_ntop6 pid e.si with
    | none => list
    | some sock =>
      collect_record opts list { sock := sock, proc_name := proc_name, malloc_ok := e.malloc_ok }

/-- The descriptor loop of `collect_process_sockets` over the entries `es`. -/
def collect_fds (inet_ntop6 : in6_addr → String) (opts : ss_options_t) (pid : Int)
    (proc_name : String) (list : List ss_sock_info_t) (es : List fd_entry) :
    List ss_sock_info_t :=
  match es with
  | [] => list
  | e :: rest =>
    collect_fds inet_ntop6 opts pid proc_name (collect_fd inet_ntop6 opts pid proc_name list e) rest

/-- What the system answers while one process is walked: the two results of
`proc_pidinfo(pid, PROC_PIDLISTFDS, ...)` (`fd_bufsize`, then `num_fds` in
bytes), whether `malloc(fd_bufsize)` returns a block, the descriptor array
`fdinfo`, and the name `get_proc_name` leaves in `proc_name`. -/
structure proc_snapshot where
  pid : Int
  fd_bufsize : Int
  malloc_ok : Bool
  num_fds : Int
  fdinfo : List fd_entry
  proc_name : String

/-- Collect sockets from a single process (`collect_process_sockets`); the
entry size `sizeof(struct proc_fdinfo)` is 8. -/
def collect_process_sockets (inet_ntop6 : in6_addr → String) (p : proc_snapshot)
    (list : List ss_sock_info_t) (opts : ss_options_t) : List ss_sock_info_t :=
  if p.fd_bufsize ≤ 0 then list
  else if p.malloc_ok = false then list
  else if p.num_fds ≤ 0 then list
  else
    let num_fds := p.num_fds / 8
    collect_fds inet_ntop6 opts p.pid p.proc_name list (p.fdinfo.take num_fds.toNat)

/-- The process loop of `collect_all_sockets` over the processes `ps`. -/
def collect_pids (inet_ntop6 : in6_addr → String) (opts : ss_options_t)
    (list : List ss_sock_info_t) (ps : List proc_snapshot) : List ss_sock_info_t :=
  match ps with
  | [] => list
  | p :: rest =>
    if p.pid = 0 then collect_pids inet_ntop6 opts list rest
    else collect_pids inet_ntop6 opts (collect_process_sockets inet_ntop6 p list opts) rest

/-- What the system answers to `collect_all_sockets`: the two results of
`proc_listpids` (`bufsize`, then `num_pids` in bytes), whether `malloc(bufsize)`
returns a block, and the processes in the order of the pid array. -/
structure pid_listing where
  bufsize : Int
  malloc_ok : Bool
  num_pids : Int
  procs : List proc_snapshot

/-- Collect all sockets from all processes (`collect_all_sockets`); `NULL` is
the empty list and `sizeof(pid_t)` is 4. -/
def collect_all_sockets (inet_ntop6 : in6_addr → String) (sys : pid_listing)
    (opts : ss_options_t) : List ss_sock_info_t :=
  if sys.bufsize ≤ 0 then []
  else if sys.malloc_ok = false then []
  else if sys.num_pids ≤ 0 then []
  else
    let num_pids := sys.num_pids / 4
    collect_pids inet_ntop6 opts [] (sys.procs.take num_pids.toNat)

/-! ## The scan as a sequence of decoded records -/

/-- The record the body of the descriptor loop decodes for the entry `e`, with
what the rest of the body needs, or `none` where the body says `continue`
before the filter. -/
def fd_record (inet_ntop6 : in6_addr → String) (pid : Int) (proc_name : String)
    (e : fd_entry) : Option decoded_fd :=
  if e.proc_fdtype ≠ PROX_FDTYPE_SOCKET then none
  else if e.ret ≤ 0 then none
  else
    match decode_socket inet_ntop6 pid e.si with
    | none => none
    | some sock => some { sock := sock, proc_name := proc_name, malloc_ok := e.malloc_ok }

/-- The records decoded from the entries `es`, in the order of the entries. -/
def fd_records (inet_ntop6 : in6_addr → String) (pid : Int) (proc_name : String)
    (es : List fd_entry) : List decoded_fd :=
  match es with
  | [] => []
  | e :: rest =>
    match fd_record inet_ntop6 pid proc_name e with
    | none => fd_records inet_ntop6 pid proc_name rest
    | some d => d :: fd_records inet_ntop6 pid proc_name rest

/-- The records decoded while the process `p` is walked, in descriptor order. -/
def process_records (inet_ntop6 : in6_addr → String) (p : proc_snapshot) : List decoded_fd :=
  if p.fd_bufsize ≤ 0 then []
  else if p.malloc_ok = false then []
  else if p.num_fds ≤ 0 then []
  else fd_records inet_ntop6 p.pid p.proc_name (p.fdinfo.take (p.num_fds / 8).toNat)

/-- The records decoded while the processes `ps` are walked, in scan order. -/
def scan_records (inet_ntop6 : in6_addr → String) (ps : List proc_snapshot) : List decoded_fd :=
  match ps with
  | [] => []
  | p :: rest =>
    if p.pid = 0 then scan_records inet_ntop6 rest
    else process_records inet_ntop6 p ++ scan_records inet_ntop6 rest

/-- The copy that `add_to_list` makes of a decoded record that reaches it: the
record, with the process name filled in when `show_process` is set. -/
def inserted_record (opts : ss_options_t) (d : decoded_fd) : ss_sock_info_t :=
  if opts.show_process = true then
    { d.sock with proc_name := c_strncpy (MAX_PROC_NAME - 1) d.proc_name }
  else d.sock

/-- The records of a scan that are accepted, in the order in which they are
accepted, after the records `acc` accepted so far: a record is accepted when it
passes the filter, no record accepted before it has its identity key, and
`add_to_list` gets memory for its copy. -/
def accepted_records (opts : ss_options_t) (acc : List ss_sock_info_t) (ds : List decoded_fd) :
    List ss_sock_info_t :=
  match ds with
  | [] => acc
  | d :: rest =>
    if should_include d.sock opts = true ∧
        (∀ a ∈ acc, identity_key a ≠ identity_key d.sock) ∧ d.malloc_ok = true then
      accepted_records opts (acc ++ [inserted_record opts d]) rest
    else accepted_records opts acc rest

/-- A metadata buffer filled with zero bytes. -/
def si_zero : socket_fdinfo :=
  { soi_family := 0, soi_type := 0, soi_protocol := 0, tcpsi_state := 0,
    insi_laddr4 := ⟨0, 0, 0, 0⟩, insi_faddr4 := ⟨0, 0, 0, 0⟩,
    insi_laddr6 := ⟨fun _ => 0⟩, insi_faddr6 := ⟨fun _ => 0⟩,
    insi_lport := 0, insi_fport := 0, soi_rcv_sbi_cc := 0, soi_snd_sbi_cc := 0,
    sun_path := "", unsi_conn_so := 0 }

/-- The buffer of a UNIX stream socket bound to `/var/run/example.sock` with no
connected peer. -/
def si_example_sock : socket_fdinfo :=
  { si_zero with soi_family := AF_UNIX, soi_type := SOCK_STREAM,
                 sun_path := "/var/run/example.sock" }

/-- The buffer of a TCP socket over IPv4 listening on port 22 (the port field
holds 22 in network byte order, `0x1600` as a little-endian host reads it). -/
def si_listen_22 : socket_fdinfo :=
  { si_zero with soi_family := AF_INET, soi_type := SOCK_STREAM,
                 soi_protocol := IPPROTO_TCP, tcpsi_state := TCPS_LISTEN,
                 insi_lport := 5632 }

/-- The buffer of a TCP socket over IPv4 listening on port 80. -/
def si_listen_80 : socket_fdinfo :=
  { si_zero with soi_family := AF_INET, soi_type := SOCK_STREAM,
                 soi_protocol := IPPROTO_TCP, tcpsi_state := TCPS_LISTEN,
                 insi_lport := 20480 }

/-- The buffer of a raw ICMP socket over IPv4 (protocol number 1). -/
def si_icmp : socket_fdinfo :=
  { si_zero with soi_family := AF_INET, soi_type := 3, soi_protocol := 1 }

/-- A process 100 whose descriptor 4 is the listening socket of `si_listen_22`
and whose descriptor 7 is the listening socket of `si_listen_80`. -/
def proc_100 : proc_snapshot :=
  { pid := 100, fd_bufsize := 16, malloc_ok := true, num_fds := 16, proc_name := "sshd",
    fdinfo :=
      [{ proc_fd := 4, proc_fdtype := PROX_FDTYPE_SOCKET, ret := 792, si := si_listen_22,
         malloc_ok := true },
       { proc_fd := 7, proc_fdtype := PROX_FDTYPE_SOCKET, ret := 792, si := si_listen_80,
         malloc_ok := true }] }

/-- A system whose only process is `proc_100`. -/
def sys_100 : pid_listing :=
  { bufsize := 4, malloc_ok := true, num_pids := 4, procs := [proc_100] }

/-- An `inet_ntop` for IPv6 that writes nothing, for scans without IPv6
sockets. -/
def inet_ntop6_unused : in6_addr → String := fun _ => ""

/-- The record decoded in process 100 from `si_example_sock`. -/
def example_sock_record : ss_sock_info_t :=
  { unix_stream_record with
    pid := 100, local_addr := "/var/run/example.sock",
    unix_path := "/var/run/example.sock", remote_addr := "*" }

/-- The record decoded in process 100 from `si_listen_22`. -/
def listen_22_record : ss_sock_info_t :=
  { tcp_listen_record with
    pid := 100, local_addr := "*:22", local_port := 22, remote_addr := "*:*" }

/-- The records decoded during a whole call of `collect_all_sockets`, in scan
order; none when the pid list cannot be obtained. -/
def all_records (inet_ntop6 : in6_addr → String) (sys : pid_listing) : List decoded_fd :=
  if sys.bufsize ≤ 0 then []
  else if sys.malloc_ok = false then []
  else if sys.num_pids ≤ 0 then []
  else scan_records inet_ntop6 (sys.procs.take (sys.num_pids / 4).toNat)

/-- The record decoded in process 100 from `si_listen_80`. -/
def listen_80_record : ss_sock_info_t :=
  { tcp_listen_record with
    pid := 100, local_addr := "*:80", local_port := 80, remote_addr := "*:*" }

/-- The buffer of a TCP socket over IPv4 listening on port 443. -/
def si_listen_443 : socket_fdinfo :=
  { si_zero with soi_family := AF_INET, soi_type := SOCK_STREAM,
                 soi_protocol := IPPROTO_TCP, tcpsi_state := TCPS_LISTEN,
                 insi_lport := 47873 }

/-- A process 200 whose descriptor 5 is the listening socket of `si_listen_443`. -/
def proc_200 : proc_snapshot :=
  { pid := 200, fd_bufsize := 8, malloc_ok := true, num_fds := 8, proc_name := "httpd",
    fdinfo :=
      [{ proc_fd := 5, proc_fdtype := PROX_FDTYPE_SOCKET, ret := 792, si := si_listen_443,
         malloc_ok := true }] }

/-- A system that lists process 100 and then process 200. -/
def sys_100_200 : pid_listing :=
  { bufsize := 8, malloc_ok := true, num_pids := 8, procs := [proc_100, proc_200] }

/-- The record decoded in process 200 from `si_listen_443`. -/
def listen_443_record : ss_sock_info_t :=
  { tcp_listen_record with
    pid := 200, local_addr := "*:443", local_port := 443, remote_addr := "*:*" }

/-- The buffer of an unnamed UNIX stream socket; `conn` is its connected-socket
field. -/
def si_unnamed (conn : Nat) : socket_fdinfo :=
  { si_zero with soi_family := AF_UNIX, soi_type := SOCK_STREAM, unsi_conn_so := conn }

/-- A process 300 with four unnamed UNIX stream sockets, the descriptors 3 to 6:
two unconnected, two connected to different peers. -/
def proc_300 : proc_snapshot :=
  { pid := 300, fd_bufsize := 32, malloc_ok := true, num_fds := 32, proc_name := "syslogd",
    fdinfo :=
      [{ proc_fd := 3, proc_fdtype := PROX_FDTYPE_SOCKET, ret := 792, si := si_unnamed 0,
         malloc_ok := true },
       { proc_fd := 4, proc_fdtype := PROX_FDTYPE_SOCKET, ret := 792, si := si_unnamed 4096,
         malloc_ok := true },
       { proc_fd := 5, proc_fdtype := PROX_FDTYPE_SOCKET, ret := 792, si := si_unnamed 0,
         malloc_ok := true },
       { proc_fd := 6, proc_fdtype := PROX_FDTYPE_SOCKET, ret := 792, si := si_unnamed 8192,
         malloc_ok := true }] }

/-- A system whose only process is `proc_300`. -/
def sys_300 : pid_listing :=
  { bufsize := 4, malloc_ok := true, num_pids := 4, procs := [proc_300] }

/-! ## `ss_proc.c`: the port-to-process mapper -/

/-- Structure to hold the port to process mapping (`port_proc_t`); `is_launchd`
is the C flag, set from a comparison. -/
structure port_proc_t where
  port : Nat
  pid : Int
  fd : Int
  cmd : String
  is_launchd : Bool
  deriving DecidableEq, Repr

/-- An entry of `port_map` after `memset(port_map, 0, sizeof(port_map))`. -/
def port_proc_zero : port_proc_t :=
  { port := 0, pid := 0, fd := 0, cmd := "", is_launchd := false }

/-- The value `ntohs(*(uint16_t *)(bytes + off))`: the two bytes at `off` read
as a big-endian 16-bit integer. -/
def read_be16 (bytes : Nat → Fin 256) (off : Nat) : Nat :=
  (bytes off).val * 256 + (bytes (off + 1)).val

/-- The value `vals[k]` of `int *vals = (int *)si_buf` on a little-endian host. -/
def read_int (bytes : Nat → Fin 256) (k : Nat) : Int :=
  let u : Nat := (bytes (4 * k)).val + 256 * (bytes (4 * k + 1)).val +
    65536 * (bytes (4 * k + 2)).val + 16777216 * (bytes (4 * k + 3)).val
  if u < 2147483648 then (u : Int) else (u : Int) - 4294967296

/-- The loop `for (k = 0; k < 8; k++)` that looks for the family, over the
indices `ks` still to visit; 0 when none of them holds a family. -/
def find_family (bytes : Nat → Fin 256) (ks : List Nat) : Int :=
  match ks with
  | [] => 0
  | k :: rest =>
    if read_int bytes k = AF_INET ∨ read_int bytes k = AF_INET6 then read_int bytes k
    else find_family bytes rest

/-- The array `fallback_offsets`, without its terminator -1. -/
def fallback_offsets : List Nat := [0x10a, 0x10e, 0x110, 0x108]

/-- The fallback loop over the offsets still to visit; the result is
`local_port` after the loop. -/
def fallback_scan (bytes : Nat → Fin 256) (ret : Int) (local_port : Nat) (offs : List Nat) :
    Nat :=
  match offs with
  | [] => local_port
  | off :: rest =>
    if (off : Int) + 2 > ret then fallback_scan bytes ret local_port rest
    else
      let port := read_be16 bytes off
      if port > 0 ∧ port < 65535 then port
      else fallback_scan bytes ret local_port rest

/-- The port-recovery step of the descriptor loop of `main`, from
`uint16_t local_port = 0` to the test before the port map is touched: the
port, or `none` where the body says `continue`. -/
def recover_port (bytes : Nat → Fin 256) (ret : Int) : Option Nat :=
  let local_port : Nat := if ret > 0x10e then read_be16 bytes 0x10c else 0
  let local_port : Nat :=
    if local_port = 0 ∨ local_port ≥ 65535 then
      fallback_scan bytes ret local_port fallback_offsets
    else local_port
  if local_port = 0 ∨ local_port ≥ 65535 then none else some local_port

/-- What the descriptor loop of `main` hands to the port map for one
descriptor: port, pid, descriptor number and process name. -/
structure observation where
  port : Nat
  pid : Int
  fd : Int
  name : String
  deriving DecidableEq, Repr

/-- One entry of the descriptor list as the loop body of `main` meets it, with
what `proc_pidfdinfo` returns for it and leaves in the zeroed `si_buf`. -/
structure proc_fd_entry where
  proc_fd : Int
  proc_fdtype : Nat
  ret : Int
  si_buf : Nat → Fin 256

/-- The body of the descriptor loop of `main` up to the port map: the
observation it makes, or `none` where it says `continue`. -/
def observe_fd (pid : Int) (name : String) (e : proc_fd_entry) : Option observation :=
  if e.proc_fdtype ≠ PROX_FDTYPE_SOCKET then none
  else if e.ret ≤ 0 then none
  else if find_family e.si_buf (List.range 8) = 0 then none
  else
    match recover_port e.si_buf e.ret with
    | none => none
    | some local_port => some { port := local_port, pid := pid, fd := e.proc_fd, name := name }

/-- The entry that the store step writes for an observation. -/
def entry_of (o : observation) : port_proc_t :=
  { port := o.port, pid := o.pid, fd := o.fd,
    cmd := c_strncpy 16 o.name,
    is_launchd := decide (o.name = "launchd") }

/-- The store step of the descriptor loop of `main`
(`Store in port map - prefer non-launchd processes`). -/
def store_observation (port_map : Nat → port_proc_t) (o : observation) : Nat → port_proc_t :=
  let entry := port_map o.port
  let is_launchd : Bool := decide (o.name = "launchd")
  if entry.port = 0 ∨ (entry.is_launchd = true ∧ is_launchd = false) then
    Function.update port_map o.port
      { port := o.port, pid := o.pid, fd := o.fd, cmd := c_strncpy 16 o.name,
        is_launchd := is_launchd }
  else port_map

/-- The port map after the store step has handled the observations in
order. -/
def store_observations (port_map : Nat → port_proc_t) (obs : List observation) :
    Nat → port_proc_t :=
  match obs with
  | [] => port_map
  | o :: rest => store_observations (store_observation port_map o) rest

/-- The lines the output loop of `main` prints, as (port, cmd, pid, fd). -/
def output_lines (port_map : Nat → port_proc_t) : List (Nat × String × Int × Int) :=
  (List.range' 1 65535).filterMap (fun port =>
    if (port_map port).port > 0 then
      some ((port_map port).port, (port_map port).cmd, (port_map port).pid, (port_map port).fd)
    else none)

/-- The observation is for port `p`. -/
def for_port (p : Nat) (o : observation) : Bool := decide (o.port = p)

/-- The observation is for port `p` and its process name is not `launchd`. -/
def for_port_not_launchd (p : Nat) (o : observation) : Bool :=
  decide (o.port = p ∧ o.name ≠ "launchd")

/-- The observation that owns port `p` according to the specification: the
first one for `p` whose process name is not `launchd`, and if there is none the
first one for `p`. -/
def port_owner (p : Nat) (obs : List observation) : Option observation :=
  match obs.find? (for_port_not_launchd p) with
  | some o => some o
  | none => obs.find? (for_port p)

/-- The test of the fallback loop on one offset: the two bytes at `off` lie
within the first `ret` bytes and their big-endian value lies strictly between 0
and 65535. -/
def usable_offset (bytes : Nat → Fin 256) (ret : Int) (off : Nat) : Bool :=
  decide ((off : Int) + 2 ≤ ret ∧ 0 < read_be16 bytes off ∧ read_be16 bytes off < 65535)

/-- A buffer that holds `hi, lo` at offset `off` and zero elsewhere. -/
def buf_with (off : Nat) (hi lo : Fin 256) : Nat → Fin 256 :=
  fun i => if i = off then hi else if i = off + 1 then lo else 0

/-- Observations of the witness: port 22 is seen in launchd (pid 1), then in
sshd (pid 100), then in a third process; port 80 is seen twice, in launchd
only. -/
def sample_observations : List observation :=
  [{ port := 22, pid := 1, fd := 5, name := "launchd" },
   { port := 22, pid := 100, fd := 4, name := "sshd" },
   { port := 22, pid := 200, fd := 3, name := "inetd" },
   { port := 80, pid := 1, fd := 6, name := "launchd" },
   { port := 80, pid := 1, fd := 7, name := "launchd" }]

/-! # Properties -/

/-! ## The state table -/

/-- Codes outside `0..10` take the `default` arm. -/
theorem darwin_to_ss_state_default (c : Int) (hc : c < 0 ∨ 10 < c) :
    darwin_to_ss_state c = SS_TCP_UNKNOWN := by
  have h0 : c ≠ 0 := by omega
  have h1 : c ≠ 1 := by omega
  have h2 : c ≠ 2 := by omega
  have h3 : c ≠ 3 := by omega
  have h4 : c ≠ 4 := by omega
  have h5 : c ≠ 5 := by omega
  have h6 : c ≠ 6 := by omega
  have h7 : c ≠ 7 := by omega
  have h8 : c ≠ 8 := by omega
  have h9 : c ≠ 9 := by omega
  have h10 : c ≠ 10 := by omega
  simp [darwin_to_ss_state, TCPS_CLOSED, TCPS_LISTEN, TCPS_SYN_SENT, TCPS_SYN_RECEIVED,
    TCPS_ESTABLISHED, TCPS_CLOSE_WAIT, TCPS_FIN_WAIT_1, TCPS_CLOSING, TCPS_LAST_ACK,
    TCPS_FIN_WAIT_2, TCPS_TIME_WAIT, h0, h1, h2, h3, h4, h5, h6, h7, h8, h9, h10]

/-- C1: `darwin_to_ss_state` maps the codes 0, 1, ..., 10 to CLOSED, LISTEN,
SYN_SENT, SYN_RECV, ESTABLISHED, CLOSE_WAIT, FIN_WAIT1, CLOSING, LAST_ACK,
FIN_WAIT2, TIME_WAIT in this order, and every other integer code, negative
ones included, to UNKNOWN (and only those); it is total, and its value is
always one of the twelve enumerators: the enumerator number `c + 1` for a code
`c` in `0..10`. -/
theorem darwin_to_ss_state_table :
    darwin_to_ss_state 0 = SS_TCP_CLOSED ∧
    darwin_to_ss_state 1 = SS_TCP_LISTEN ∧
    darwin_to_ss_state 2 = SS_TCP_SYN_SENT ∧
    darwin_to_ss_state 3 = SS_TCP_SYN_RECV ∧
    darwin_to_ss_state 4 = SS_TCP_ESTABLISHED ∧
    darwin_to_ss_state 5 = SS_TCP_CLOSE_WAIT ∧
    darwin_to_ss_state 6 = SS_TCP_FIN_WAIT1 ∧
    darwin_to_ss_state 7 = SS_TCP_CLOSING ∧
    darwin_to_ss_state 8 = SS_TCP_LAST_ACK ∧
    darwin_to_ss_state 9 = SS_TCP_FIN_WAIT2 ∧
    darwin_to_ss_state 10 = SS_TCP_TIME_WAIT ∧
    (∀ c : Int, (c < 0 ∨ 10 < c) → darwin_to_ss_state c = SS_TCP_UNKNOWN) ∧
    (∀ c : Int, darwin_to_ss_state c = SS_TCP_UNKNOWN → (c < 0 ∨ 10 < c)) ∧
    (∀ c : Int, 0 ≤ c → c ≤ 10 → (darwin_to_ss_state c).toInt = c + 1) ∧
    (∀ c : Int, darwin_to_ss_state c ∈
      [SS_TCP_CLOSED, SS_TCP_LISTEN, SS_TCP_SYN_SENT, SS_TCP_SYN_RECV, SS_TCP_ESTABLISHED,
       SS_TCP_CLOSE_WAIT, SS_TCP_FIN_WAIT1, SS_TCP_CLOSING, SS_TCP_LAST_ACK,
       SS_TCP_FIN_WAIT2, SS_TCP_TIME_WAIT, SS_TCP_UNKNOWN]) := by
  refine ⟨by decide, by decide, by decide, by decide, by decide, by decide, by decide,
    by decide, by decide, by decide, by decide, darwin_to_ss_state_default, ?_, ?_, ?_⟩
  · intro c h
    by_contra hn
    have hlo : 0 ≤ c := by omega
    have hhi : c ≤ 10 := by omega
    interval_cases c <;> revert h <;> decide
  · intro c hlo hhi
    interval_cases c <;> decide
  · intro c
    by_cases hc : c < 0 ∨ 10 < c
    · rw [darwin_to_ss_state_default c hc]
      decide
    · have hlo : 0 ≤ c := by omega
      have hhi : c ≤ 10 := by omega
      interval_cases c <;> decide

/-- Witness of C1 at the codes -3, 11 and 4. -/
theorem darwin_to_ss_state_table_witness :
    darwin_to_ss_state (-3) = SS_TCP_UNKNOWN ∧ darwin_to_ss_state 11 = SS_TCP_UNKNOWN ∧
    (darwin_to_ss_state 4).toInt = 4 + 1 :=
  ⟨darwin_to_ss_state_table.2.2.2.2.2.2.2.2.2.2.2.1 (-3) (Or.inl (by decide)),
   darwin_to_ss_state_table.2.2.2.2.2.2.2.2.2.2.2.1 11 (Or.inr (by decide)),
   darwin_to_ss_state_table.2.2.2.2.2.2.2.2.2.2.2.2.2.1 4 (by decide) (by decide)⟩

/-! ## The inclusion filter -/

/-- The filter is the conjunction of its four blocks. -/
theorem should_include_eq_gates (r : ss_sock_info_t) (c : ss_options_t) :
    should_include r c =
      (protocol_gate r c && listening_gate r c && default_state_gate r c && family_gate r c) := by
  unfold should_include protocol_gate listening_gate default_state_gate family_gate
  by_cases g1 : r.protocol = SS_PROTO_TCP ∧ c.show_tcp = false
  · simp [g1]
  by_cases g2 : r.protocol = SS_PROTO_UDP ∧ c.show_udp = false
  · simp [g1, g2]
  by_cases g3 : (r.protocol = SS_PROTO_UNIX_STREAM ∨ r.protocol = SS_PROTO_UNIX_DGRAM)
      ∧ c.show_unix = false
  · simp [g1, g2, g3]
  rw [if_neg g1, if_neg g2, if_neg g3, if_neg g1, if_neg g2, if_neg g3]
  cases hl : c.show_listening <;> cases ha : c.show_all <;> simp [Bool.and_assoc]

/-- What each block of the filter tests, as a proposition. -/
theorem protocol_gate_iff (r : ss_sock_info_t) (c : ss_options_t) :
    protocol_gate r c = true ↔
      (r.protocol = SS_PROTO_TCP → c.show_tcp = true) ∧
      (r.protocol = SS_PROTO_UDP → c.show_udp = true) ∧
      (r.protocol = SS_PROTO_UNIX_STREAM ∨ r.protocol = SS_PROTO_UNIX_DGRAM →
        c.show_unix = true) := by
  unfold protocol_gate
  cases hp : r.protocol <;> cases h1 : c.show_tcp <;> cases h2 : c.show_udp <;>
    cases h3 : c.show_unix <;> simp

theorem listening_gate_iff (r : ss_sock_info_t) (c : ss_options_t) :
    listening_gate r c = true ↔
      (c.show_listening = true →
        (r.protocol = SS_PROTO_TCP → r.state = SS_TCP_LISTEN) ∧
        (r.protocol = SS_PROTO_UDP → r.remote_port = 0)) := by
  unfold listening_gate
  cases hp : r.protocol <;> cases hl : c.show_listening <;> simp

theorem default_state_gate_iff (r : ss_sock_info_t) (c : ss_options_t) :
    default_state_gate r c = true ↔
      (c.show_all = false → c.show_listening = false → r.protocol = SS_PROTO_TCP →
        r.state = SS_TCP_ESTABLISHED ∨ r.state = SS_TCP_LISTEN) := by
  unfold default_state_gate
  cases hp : r.protocol <;> cases hl : c.show_listening <;> cases ha : c.show_all <;> simp

theorem family_gate_iff (r : ss_sock_info_t) (c : ss_options_t) :
    family_gate r c = true ↔
      (c.ipv4_only = true → r.family = SS_FAMILY_INET) ∧
      (c.ipv6_only = true → r.family = SS_FAMILY_INET6) := by
  unfold family_gate
  cases h4 : c.ipv4_only <;> cases h6 : c.ipv6_only <;> simp

theorem should_include_iff (r : ss_sock_info_t) (c : ss_options_t) :
    should_include r c = true ↔
      protocol_gate r c = true ∧ listening_gate r c = true ∧
      default_state_gate r c = true ∧ family_gate r c = true := by
  rw [should_include_eq_gates]
  simp [Bool.and_eq_true, and_assoc]

/-- C2: for a TCP record and a config with `show_tcp` set, `show_all` and
`show_listening` unset and no family option excluding the record's family,
`should_include` holds exactly when the state is ESTABLISHED or LISTEN. For a
non-TCP record the state has no influence on the default-state gate (it lets
the record pass) nor on `should_include` as a whole, and with `show_all` set
the default-state gate lets every record pass whatever its state. -/
theorem should_include_default_state (r : ss_sock_info_t) (c : ss_options_t) :
    (r.protocol = SS_PROTO_TCP → c.show_tcp = true → c.show_all = false →
      c.show_listening = false →
      (c.ipv4_only = true → r.family = SS_FAMILY_INET) →
      (c.ipv6_only = true → r.family = SS_FAMILY_INET6) →
      (should_include r c = true ↔
        (r.state = SS_TCP_ESTABLISHED ∨ r.state = SS_TCP_LISTEN))) ∧
    (r.protocol ≠ SS_PROTO_TCP → ∀ s : ss_tcp_state_t,
      default_state_gate { r with state := s } c = true ∧
      should_include { r with state := s } c = should_include r c) ∧
    (c.show_all = true → ∀ s : ss_tcp_state_t,
      default_state_gate { r with state := s } c = true) := by
  refine ⟨?_, ?_, ?_⟩
  · intro hp ht ha hl h4 h6
    rw [should_include_iff, protocol_gate_iff, listening_gate_iff, default_state_gate_iff,
      family_gate_iff]
    simp [hp, ht, ha, hl]
    intro _
    exact ⟨h4, h6⟩
  · intro hp s
    refine ⟨?_, ?_⟩
    · rw [default_state_gate_iff]
      intro _ _ h
      exact absurd h hp
    · rw [Bool.eq_iff_iff, should_include_iff, should_include_iff, protocol_gate_iff,
        protocol_gate_iff, listening_gate_iff, listening_gate_iff, default_state_gate_iff,
        default_state_gate_iff, family_gate_iff, family_gate_iff]
      simp [hp]
  · intro ha s
    rw [default_state_gate_iff]
    intro h
    rw [ha] at h
    exact absurd h (by decide)

/-- Witness of C2: an ESTABLISHED TCP record under `-t`, a UDP record whose
state is overwritten, and a TCP record under `-a`. -/
theorem should_include_default_state_witness :
    (should_include tcp_established_record { opts_zero with show_tcp := true } = true ↔
      (tcp_established_record.state = SS_TCP_ESTABLISHED ∨
        tcp_established_record.state = SS_TCP_LISTEN)) ∧
    (default_state_gate { udp_record with state := SS_TCP_SYN_SENT }
        { opts_zero with show_udp := true } = true ∧
      should_include { udp_record with state := SS_TCP_SYN_SENT }
        { opts_zero with show_udp := true } =
        should_include udp_record { opts_zero with show_udp := true }) ∧
    default_state_gate { tcp_established_record with state := SS_TCP_TIME_WAIT }
      { opts_zero with show_tcp := true, show_all := true } = true :=
  ⟨(should_include_default_state tcp_established_record
      { opts_zero with show_tcp := true }).1 rfl rfl rfl rfl (by decide) (by decide),
   (should_include_default_state udp_record
      { opts_zero with show_udp := true }).2.1 (by decide) SS_TCP_SYN_SENT,
   (should_include_default_state tcp_established_record
      { opts_zero with show_tcp := true, show_all := true }).2.2 rfl SS_TCP_TIME_WAIT⟩

/-- C3: with `show_listening` set, a record that passes the protocol gate and
the address-family gate is included, if TCP, exactly when its state is LISTEN;
if UDP, exactly when its remote port is 0; and if UNIX_STREAM or UNIX_DGRAM,
always, whatever its state and ports. -/
theorem should_include_listening (r : ss_sock_info_t) (c : ss_options_t)
    (hl : c.show_listening = true) (hproto : protocol_gate r c = true)
    (hfam : family_gate r c = true) :
    (r.protocol = SS_PROTO_TCP →
      (should_include r c = true ↔ r.state = SS_TCP_LISTEN)) ∧
    (r.protocol = SS_PROTO_UDP →
      (should_include r c = true ↔ r.remote_port = 0)) ∧
    (r.protocol = SS_PROTO_UNIX_STREAM ∨ r.protocol = SS_PROTO_UNIX_DGRAM →
      should_include r c = true) := by
  refine ⟨?_, ?_, ?_⟩
  · intro hp
    rw [should_include_iff, listening_gate_iff, default_state_gate_iff]
    simp [hp, hl, hproto, hfam]
  · intro hp
    rw [should_include_iff, listening_gate_iff, default_state_gate_iff]
    simp [hp, hl, hproto, hfam]
  · intro hp
    rw [should_include_iff, listening_gate_iff, default_state_gate_iff]
    rcases hp with hp | hp <;> simp [hp, hl, hproto, hfam]

/-- Witness of C3: a UNIX stream record under `-x -l`, with a state and ports
that a TCP or UDP record would be rejected for. -/
theorem should_include_listening_witness :
    should_include
      { unix_stream_record with state := SS_TCP_SYN_SENT, local_port := 7, remote_port := 9 }
      { opts_zero with show_unix := true, show_listening := true } = true :=
  (should_include_listening
      { unix_stream_record with state := SS_TCP_SYN_SENT, local_port := 7, remote_port := 9 }
      { opts_zero with show_unix := true, show_listening := true }
      rfl (by decide) (by decide)).2.2 (Or.inl rfl)

/-- C4, as the claim states it, fails: a UNIX stream record that `-x` includes
is excluded by `-x -4` and by `-x -6`, so the decision on a UNIX record does
depend on `ipv4_only` and on `ipv6_only`. -/
theorem unix_record_family_gate_counterexample :
    unix_stream_record.family = SS_FAMILY_UNIX ∧
    should_include unix_stream_record { opts_zero with show_unix := true } = true ∧
    should_include unix_stream_record
      { opts_zero with show_unix := true, ipv4_only := true } = false ∧
    should_include unix_stream_record
      { opts_zero with show_unix := true, ipv6_only := true } = false := by
  decide

/-- C4 (amended): the address-family gate applies to every family alike. A
record is included only if `ipv4_only` implies family INET and `ipv6_only`
implies family INET6, and the gate passes exactly then; so a record of family
UNIX is excluded whenever `ipv4_only` or `ipv6_only` is set, and when both are
unset the gate lets every record pass. -/
theorem should_include_family (r : ss_sock_info_t) (c : ss_options_t) :
    (should_include r c = true →
      (c.ipv4_only = true → r.family = SS_FAMILY_INET) ∧
      (c.ipv6_only = true → r.family = SS_FAMILY_INET6)) ∧
    (family_gate r c = true ↔
      (c.ipv4_only = true → r.family = SS_FAMILY_INET) ∧
      (c.ipv6_only = true → r.family = SS_FAMILY_INET6)) ∧
    (r.family = SS_FAMILY_UNIX → (c.ipv4_only = true ∨ c.ipv6_only = true) →
      should_include r c = false) ∧
    (c.ipv4_only = false → c.ipv6_only = false → family_gate r c = true) := by
  refine ⟨?_, family_gate_iff r c, ?_, ?_⟩
  · intro h
    exact (family_gate_iff r c).mp ((should_include_iff r c).mp h).2.2.2
  · intro hu hflag
    rw [Bool.eq_false_iff]
    intro h
    have hg := (family_gate_iff r c).mp ((should_include_iff r c).mp h).2.2.2
    rcases hflag with h4 | h6
    · have := hg.1 h4
      rw [hu] at this
      exact absurd this (by decide)
    · have := hg.2 h6
      rw [hu] at this
      exact absurd this (by decide)
  · intro h4 h6
    rw [family_gate_iff]
    simp [h4, h6]

/-- Witness of amended C4: an included ESTABLISHED TCP record under `-t -4`
has family INET, and a UNIX stream record under `-x -6` is excluded. -/
theorem should_include_family_witness :
    ((({ opts_zero with show_tcp := true, ipv4_only := true } : ss_options_t).ipv4_only = true →
        tcp_established_record.family = SS_FAMILY_INET) ∧
      (({ opts_zero with show_tcp := true, ipv4_only := true } : ss_options_t).ipv6_only = true →
        tcp_established_record.family = SS_FAMILY_INET6)) ∧
    should_include unix_stream_record
      { opts_zero with show_unix := true, ipv6_only := true } = false :=
  ⟨(should_include_family tcp_established_record
      { opts_zero with show_tcp := true, ipv4_only := true }).1 (by decide),
   (should_include_family unix_stream_record
      { opts_zero with show_unix := true, ipv6_only := true }).2.2.1 rfl (Or.inr rfl)⟩

/-! ## Default protocol substitution -/

/-- C5: on a config with no protocol flag set, the substitution done in `main`
yields the config with TCP and UDP set and UNIX unset, so `should_include`
decides every record as under that explicit config, and every UNIX_STREAM or
UNIX_DGRAM record is excluded. On every config the substitution leaves the
other ten option fields as they were, and a config with some protocol flag set
is left unchanged altogether. -/
theorem main_default_protocols_refines (c : ss_options_t) :
    (c.show_tcp = false → c.show_udp = false → c.show_unix = false →
      main_default_protocols c = explicit_tcp_udp c ∧
      (∀ r : ss_sock_info_t,
        should_include r (main_default_protocols c) =
          should_include r { c with show_tcp := true, show_udp := true, show_unix := false }) ∧
      (∀ r : ss_sock_info_t,
        r.protocol = SS_PROTO_UNIX_STREAM ∨ r.protocol = SS_PROTO_UNIX_DGRAM →
        should_include r (main_default_protocols c) = false)) ∧
    ((main_default_protocols c).show_listening = c.show_listening ∧
      (main_default_protocols c).show_all = c.show_all ∧
      (main_default_protocols c).numeric = c.numeric ∧
      (main_default_protocols c).show_process = c.show_process ∧
      (main_default_protocols c).extended = c.extended ∧
      (main_default_protocols c).summary = c.summary ∧
      (main_default_protocols c).ipv4_only = c.ipv4_only ∧
      (main_default_protocols c).ipv6_only = c.ipv6_only ∧
      (main_default_protocols c).version = c.version ∧
      (main_default_protocols c).help = c.help) ∧
    ((c.show_tcp = true ∨ c.show_udp = true ∨ c.show_unix = true) →
      main_default_protocols c = c) := by
  refine ⟨?_, ?_, ?_⟩
  · intro h1 h2 h3
    have heq : main_default_protocols c = explicit_tcp_udp c := by
      unfold main_default_protocols explicit_tcp_udp
      rw [if_pos ⟨h1, h2, h3⟩, ← h3]
    refine ⟨heq, ?_, ?_⟩
    · intro r
      rw [heq]
      rfl
    · intro r hr
      rw [heq, Bool.eq_false_iff]
      intro h
      have hg := (protocol_gate_iff r _).mp ((should_include_iff r _).mp h).1
      have := hg.2.2 hr
      simp [explicit_tcp_udp] at this
  · unfold main_default_protocols
    split_ifs <;> simp
  · intro h
    unfold main_default_protocols
    rw [if_neg]
    intro hn
    rcases h with h | h | h
    · rw [hn.1] at h
      exact absurd h (by decide)
    · rw [hn.2.1] at h
      exact absurd h (by decide)
    · rw [hn.2.2] at h
      exact absurd h (by decide)

/-- Witness of C5: the all-false config, an ESTABLISHED TCP record and a UNIX
stream record; and the config `-x`, which the substitution leaves alone. -/
theorem main_default_protocols_refines_witness :
    (main_default_protocols opts_zero = explicit_tcp_udp opts_zero ∧
      (∀ r : ss_sock_info_t,
        should_include r (main_default_protocols opts_zero) =
          should_include r
            { opts_zero with show_tcp := true, show_udp := true, show_unix := false }) ∧
      (∀ r : ss_sock_info_t,
        r.protocol = SS_PROTO_UNIX_STREAM ∨ r.protocol = SS_PROTO_UNIX_DGRAM →
        should_include r (main_default_protocols opts_zero) = false)) ∧
    main_default_protocols { opts_zero with show_unix := true } =
      { opts_zero with show_unix := true } :=
  ⟨(main_default_protocols_refines opts_zero).1 rfl rfl rfl,
   (main_default_protocols_refines { opts_zero with show_unix := true }).2.2
      (Or.inr (Or.inr rfl))⟩

/-! ## Order of the gates -/

/-- Evaluating gates in some order accepts exactly when every listed gate
passes. -/
theorem eval_gates_iff (order : List (Fin 4)) (r : ss_sock_info_t) (c : ss_options_t) :
    eval_gates order r c = true ↔ ∀ i ∈ order, gate i r c = true := by
  induction order with
  | nil => simp [eval_gates]
  | cons i rest ih =>
    unfold eval_gates
    cases hg : gate i r c <;> simp [hg, ih]

/-- C6: `should_include` is the conjunction of the protocol gate, the
listening-only gate, the default-state gate and the address-family gate, each
a function of the record and the config alone; there are 24 orders of the four
gates, and evaluating the gates in any of them, rejecting at the first gate
that fails, gives the decision of `should_include`. -/
theorem should_include_order_independent (r : ss_sock_info_t) (c : ss_options_t) :
    should_include r c =
      (protocol_gate r c && listening_gate r c && default_state_gate r c && family_gate r c) ∧
    (List.permutations ([0, 1, 2, 3] : List (Fin 4))).length = 24 ∧
    (∀ order : List (Fin 4), order ∈ List.permutations ([0, 1, 2, 3] : List (Fin 4)) →
      eval_gates order r c = should_include r c) := by
  refine ⟨should_include_eq_gates r c, by rw [List.length_permutations]; rfl, ?_⟩
  intro order hmem
  have hperm : List.Perm order [0, 1, 2, 3] := List.mem_permutations.mp hmem
  rw [Bool.eq_iff_iff, eval_gates_iff, should_include_iff]
  constructor
  · intro h
    exact ⟨h 0 (hperm.mem_iff.mpr (by decide)), h 1 (hperm.mem_iff.mpr (by decide)),
      h 2 (hperm.mem_iff.mpr (by decide)), h 3 (hperm.mem_iff.mpr (by decide))⟩
  · intro h i _
    fin_cases i
    · exact h.1
    · exact h.2.1
    · exact h.2.2.1
    · exact h.2.2.2

/-- Witness of C6: the order family, listening, protocol, default-state on a
TCP record in SYN_SENT under `-t -6`, which two gates reject. -/
theorem should_include_order_independent_witness :
    eval_gates [3, 1, 0, 2] { tcp_established_record with state := SS_TCP_SYN_SENT }
        { opts_zero with show_tcp := true, ipv6_only := true } =
      should_include { tcp_established_record with state := SS_TCP_SYN_SENT }
        { opts_zero with show_tcp := true, ipv6_only := true } :=
  (should_include_order_independent { tcp_established_record with state := SS_TCP_SYN_SENT }
      { opts_zero with show_tcp := true, ipv6_only := true }).2.2 [3, 1, 0, 2]
    (List.mem_permutations.mpr (by decide))

/-! ## Duplicate suppression -/

/-- The duplicate check succeeds exactly when some entry of the list has the
identity key of the record. -/
theorem socket_exists_iff (list : List ss_sock_info_t) (sock : ss_sock_info_t) :
    socket_exists list sock = true ↔ ∃ s ∈ list, identity_key s = identity_key sock := by
  induction list with
  | nil => simp [socket_exists]
  | cons s rest ih =>
    unfold socket_exists
    by_cases h : s.protocol = sock.protocol ∧ s.family = sock.family ∧
        s.local_port = sock.local_port ∧ s.remote_port = sock.remote_port ∧
        s.local_addr = sock.local_addr ∧ s.remote_addr = sock.remote_addr
    · rw [if_pos h]
      simp only [true_iff]
      refine ⟨s, List.mem_cons_self _ _, ?_⟩
      obtain ⟨h1, h2, h3, h4, h5, h6⟩ := h
      simp [identity_key, h1, h2, h3, h4, h5, h6]
    · rw [if_neg h, ih]
      constructor
      · rintro ⟨x, hx, hk⟩
        exact ⟨x, List.mem_cons_of_mem _ hx, hk⟩
      · rintro ⟨x, hx, hk⟩
        rcases List.mem_cons.mp hx with rfl | hx
        · exfalso
          apply h
          simp only [identity_key, Prod.mk.injEq] at hk
          obtain ⟨h1, h2, h3, h4, h5, h6⟩ := hk
          exact ⟨h1, h2, h3, h4, h5, h6⟩
        · exact ⟨x, hx, hk⟩

/-- The loop body either leaves the list as it was (record filtered out,
duplicate, or no memory) or puts a copy of the record, with its key and pid, at
the head. -/
theorem collect_record_cases (opts : ss_options_t) (list : List ss_sock_info_t)
    (d : decoded_fd) :
    (collect_record opts list d = list ∧
      (should_include d.sock opts = false ∨ socket_exists list d.sock = true ∨
        d.malloc_ok = false)) ∨
    (should_include d.sock opts = true ∧ socket_exists list d.sock = false ∧
      d.malloc_ok = true ∧
      ∃ e : ss_sock_info_t, identity_key e = identity_key d.sock ∧ e.pid = d.sock.pid ∧
        collect_record opts list d = e :: list) := by
  unfold collect_record
  cases hi : should_include d.sock opts
  · simp
  cases he : socket_exists list d.sock
  swap
  · simp
  cases hm : d.malloc_ok
  · simp [add_to_list, hm]
  right
  refine ⟨rfl, rfl, rfl, ?_⟩
  cases hp : opts.show_process
  · exact ⟨d.sock, rfl, rfl, by simp [add_to_list, hm]⟩
  · exact ⟨{ d.sock with proc_name := c_strncpy (MAX_PROC_NAME - 1) d.proc_name }, rfl, rfl,
      by simp [add_to_list, hm]⟩

/-- One loop body keeps the keys of the list pairwise different. -/
theorem collect_record_pairwise (opts : ss_options_t) (list : List ss_sock_info_t)
    (d : decoded_fd)
    (h : list.Pairwise (fun a b => identity_key a ≠ identity_key b)) :
    (collect_record opts list d).Pairwise (fun a b => identity_key a ≠ identity_key b) := by
  rcases collect_record_cases opts list d with ⟨heq, _⟩ | ⟨_, hne, _, e, hk, _, heq⟩
  · rw [heq]
    exact h
  · rw [heq, List.pairwise_cons]
    refine ⟨?_, h⟩
    intro s hs hks
    have hex : socket_exists list d.sock = true :=
      (socket_exists_iff list d.sock).mpr ⟨s, hs, by rw [← hks, hk]⟩
    rw [hne] at hex
    exact absurd hex (by decide)

/-- The scan keeps the keys of the list pairwise different. -/
theorem collect_records_pairwise (opts : ss_options_t) (ds : List decoded_fd) :
    ∀ list : List ss_sock_info_t,
      list.Pairwise (fun a b => identity_key a ≠ identity_key b) →
      (collect_records opts list ds).Pairwise (fun a b => identity_key a ≠ identity_key b) := by
  induction ds with
  | nil => intro list h; exact h
  | cons d rest ih =>
    intro list h
    exact ih _ (collect_record_pairwise opts list d h)

/-- An entry after one loop body was there before or comes from the record. -/
theorem collect_record_source (opts : ss_options_t) (list : List ss_sock_info_t)
    (d : decoded_fd) (e : ss_sock_info_t) (he : e ∈ collect_record opts list d) :
    e ∈ list ∨ (should_include d.sock opts = true ∧ identity_key e = identity_key d.sock ∧
      e.pid = d.sock.pid) := by
  rcases collect_record_cases opts list d with ⟨heq, _⟩ | ⟨hi, _, _, e', hk, hpid, heq⟩
  · rw [heq] at he
    exact Or.inl he
  · rw [heq] at he
    rcases List.mem_cons.mp he with rfl | he
    · exact Or.inr ⟨hi, hk, hpid⟩
    · exact Or.inl he

/-- An entry after the scan was there before or comes from a record of the scan
that passes the filter, with the key and pid of that record. -/
theorem collect_records_source (opts : ss_options_t) (ds : List decoded_fd) :
    ∀ (list : List ss_sock_info_t) (e : ss_sock_info_t), e ∈ collect_records opts list ds →
      e ∈ list ∨ ∃ d ∈ ds, should_include d.sock opts = true ∧
        identity_key e = identity_key d.sock ∧ e.pid = d.sock.pid := by
  induction ds with
  | nil => intro list e he; exact Or.inl he
  | cons d rest ih =>
    intro list e he
    rcases ih _ e he with h | ⟨d', hd', h⟩
    · rcases collect_record_source opts list d e h with h | h
      · exact Or.inl h
      · exact Or.inr ⟨d, List.mem_cons_self _ _, h⟩
    · exact Or.inr ⟨d', List.mem_cons_of_mem _ hd', h⟩

/-- No owner for a key means no entry with that key. -/
theorem owner_pid_eq_none_iff (k : ss_proto_t × ss_family_t × Nat × Nat × String × String)
    (list : List ss_sock_info_t) :
    owner_pid k list = none ↔ ∀ s ∈ list, identity_key s ≠ k := by
  unfold owner_pid
  simp [List.find?_eq_none]

/-- Owner of a key after one loop body whose allocation succeeds. -/
theorem collect_record_owner (opts : ss_options_t)
    (k : ss_proto_t × ss_family_t × Nat × Nat × String × String)
    (list : List ss_sock_info_t) (d : decoded_fd) (hm : d.malloc_ok = true) :
    owner_pid k (collect_record opts list d) =
      match owner_pid k list with
      | some p => some p
      | none => (first_candidate opts k [d]).map (fun f => f.sock.pid) := by
  rcases collect_record_cases opts list d with ⟨heq, hwhy⟩ | ⟨hi, hne, _, e, hk, hpid, heq⟩
  · rw [heq]
    cases ho : owner_pid k list with
    | some p => rfl
    | none =>
      simp only
      have hnone := (owner_pid_eq_none_iff k list).mp ho
      rcases hwhy with hi | hex | hmf
      · simp [first_candidate, hi]
      · obtain ⟨s, hs, hks⟩ := (socket_exists_iff list d.sock).mp hex
        have hdk : identity_key d.sock ≠ k := by
          rw [← hks]
          exact hnone s hs
        simp [first_candidate, hdk]
      · rw [hm] at hmf
        exact absurd hmf (by decide)
  · rw [heq]
    by_cases hdk : identity_key d.sock = k
    · have hnone : owner_pid k list = none := by
        rw [owner_pid_eq_none_iff]
        intro s hs hsk
        have hex : socket_exists list d.sock = true :=
          (socket_exists_iff list d.sock).mpr ⟨s, hs, by rw [hsk, hdk]⟩
        rw [hne] at hex
        exact absurd hex (by decide)
      rw [hnone]
      simp [owner_pid, first_candidate, hk, hdk, hi, hpid]
    · have hek : identity_key e ≠ k := by rw [hk]; exact hdk
      have : owner_pid k (e :: list) = owner_pid k list := by
        simp [owner_pid, List.find?_cons, hek]
      rw [this]
      cases ho : owner_pid k list with
      | some p => rfl
      | none => simp [first_candidate, hdk]

/-- Owner of a key after the scan, when every allocation succeeds: the owner in
the initial list if there is one, else the pid of the first candidate. -/
theorem collect_records_owner (opts : ss_options_t)
    (k : ss_proto_t × ss_family_t × Nat × Nat × String × String) (ds : List decoded_fd) :
    ∀ list : List ss_sock_info_t, (∀ d ∈ ds, d.malloc_ok = true) →
      owner_pid k (collect_records opts list ds) =
        match owner_pid k list with
        | some p => some p
        | none => (first_candidate opts k ds).map (fun f => f.sock.pid) := by
  induction ds with
  | nil =>
    intro list _
    cases ho : owner_pid k list <;> simp [collect_records, first_candidate, ho]
  | cons d rest ih =>
    intro list hm
    have hmd : d.malloc_ok = true := hm d (List.mem_cons_self _ _)
    have hmr : ∀ x ∈ rest, x.malloc_ok = true := fun x hx => hm x (List.mem_cons_of_mem _ hx)
    show owner_pid k (collect_records opts (collect_record opts list d) rest) = _
    rw [ih _ hmr, collect_record_owner opts k list d hmd]
    cases ho : owner_pid k list with
    | some p => rfl
    | none =>
      simp only
      by_cases hd : (should_include d.sock opts && decide (identity_key d.sock = k)) = true
      · simp [first_candidate, List.find?_cons, hd]
      · simp [first_candidate, List.find?_cons, hd]

/-- With pairwise different keys, two entries with one key are one entry. -/
theorem pairwise_key_unique (list : List ss_sock_info_t)
    (h : list.Pairwise (fun a b => identity_key a ≠ identity_key b))
    (a b : ss_sock_info_t) (ha : a ∈ list) (hb : b ∈ list)
    (hk : identity_key a = identity_key b) : a = b := by
  induction list with
  | nil => simp at ha
  | cons x rest ih =>
    rw [List.pairwise_cons] at h
    rcases List.mem_cons.mp ha with hax | har
    · rcases List.mem_cons.mp hb with hbx | hbr
      · rw [hax, hbx]
      · rw [hax] at hk
        exact absurd hk (h.1 b hbr)
    · rcases List.mem_cons.mp hb with hbx | hbr
      · rw [hbx] at hk
        exact absurd hk.symm (h.1 a har)
      · exact ih h.2 har hbr

/-- C7: starting from the empty list, after any sequence of decoded records has
gone through the filter, duplicate check and insertion of
`collect_process_sockets`, no two entries of the list agree on the identity key
(protocol, family, local_port, remote_port, local_addr, remote_addr), and every
entry has the key and pid of a record of the scan that passes the filter. When
every `malloc` of `add_to_list` succeeds, for every record of the scan that
passes the filter the list holds exactly one entry with its key, and that entry
carries the pid of the first record in scan order that passes the filter and
has this key. -/
theorem collect_records_dedup (opts : ss_options_t) (ds : List decoded_fd) :
    (collect_records opts [] ds).Pairwise (fun a b => identity_key a ≠ identity_key b) ∧
    (∀ e ∈ collect_records opts [] ds, ∃ d ∈ ds, should_include d.sock opts = true ∧
      identity_key e = identity_key d.sock ∧ e.pid = d.sock.pid) ∧
    ((∀ d ∈ ds, d.malloc_ok = true) →
      ∀ d ∈ ds, should_include d.sock opts = true →
        ∃ (f : decoded_fd) (e : ss_sock_info_t),
          first_candidate opts (identity_key d.sock) ds = some f ∧
          e ∈ collect_records opts [] ds ∧
          identity_key e = identity_key d.sock ∧
          e.pid = f.sock.pid ∧
          ∀ e' ∈ collect_records opts [] ds,
            identity_key e' = identity_key d.sock → e' = e) := by
  have hpw := collect_records_pairwise opts ds [] List.Pairwise.nil
  refine ⟨hpw, ?_, ?_⟩
  · intro e he
    rcases collect_records_source opts ds [] e he with h | h
    · simp at h
    · exact h
  · intro hm d hd hi
    have hsome : (first_candidate opts (identity_key d.sock) ds).isSome = true := by
      unfold first_candidate
      rw [List.find?_isSome]
      exact ⟨d, hd, by simp [hi]⟩
    obtain ⟨f, hf⟩ := Option.isSome_iff_exists.mp hsome
    have hown := collect_records_owner opts (identity_key d.sock) ds [] hm
    rw [hf] at hown
    simp only [owner_pid, List.find?_nil, Option.map_none', Option.map_some'] at hown
    rw [Option.map_eq_some'] at hown
    obtain ⟨e, hfind, hpid⟩ := hown
    have hmem : e ∈ collect_records opts [] ds := List.mem_of_find?_eq_some hfind
    have hkey : identity_key e = identity_key d.sock := by
      have := List.find?_some hfind
      simpa using this
    refine ⟨f, e, hf, hmem, hkey, hpid, ?_⟩
    intro e' he' hk'
    exact pairwise_key_unique _ hpw e' e he' hmem (by rw [hk', hkey])

/-- Witness of C7: processes 100 and 200 each decode the TCP connection
`10.0.0.5:51000 -> 10.0.0.9:443`, ESTABLISHED; under the default config the
list ends with exactly one entry, that of process 100. -/
theorem collect_records_dedup_witness :
    (∃ (f : decoded_fd) (e : ss_sock_info_t),
      first_candidate (main_default_protocols opts_zero) (identity_key (shared_connection 200))
        shared_connection_scan = some f ∧
      e ∈ collect_records (main_default_protocols opts_zero) [] shared_connection_scan ∧
      identity_key e = identity_key (shared_connection 200) ∧
      e.pid = f.sock.pid ∧
      ∀ e' ∈ collect_records (main_default_protocols opts_zero) [] shared_connection_scan,
        identity_key e' = identity_key (shared_connection 200) → e' = e) ∧
    collect_records (main_default_protocols opts_zero) [] shared_connection_scan =
      [shared_connection 100] :=
  ⟨(collect_records_dedup (main_default_protocols opts_zero) shared_connection_scan).2.2
      (by decide) { sock := shared_connection 200, proc_name := "", malloc_ok := true }
      (by simp [shared_connection_scan]) (by decide),
   by decide⟩


/-! ## Summary counters -/

/-- An incremented counter is a `uint32_t` value. -/
theorem inc32_lt (x : Nat) : inc32 x < 2 ^ 32 := Nat.mod_lt _ (by decide)

/-- One increment and then `c` more is `c + 1` more, modulo `2 ^ 32`. -/
theorem inc32_add (x c : Nat) : (inc32 x + c) % 2 ^ 32 = (x + (c + 1)) % 2 ^ 32 := by
  unfold inc32
  omega

/-- The loop body keeps every counter a `uint32_t` value. -/
theorem calculate_stats_step_in_range (st : ss_stats_t) (s : ss_sock_info_t)
    (h : stats_in_range st) : stats_in_range (calculate_stats_step st s) := by
  obtain ⟨h1, h2, h3, h4, h5, h6, h7, h8, h9, h10, h11, h12, h13, h14, h15⟩ := h
  unfold calculate_stats_step stats_in_range
  cases hp : s.protocol <;> cases hs : s.state <;>
    simp only [inc32_lt, and_self, and_true, true_and, h1, h2, h3, h4, h5, h6, h7, h8, h9, h10,
      h11, h12, h13, h14, h15]

/-- The loop body accounts for the head record of the list. -/
theorem stats_add32_step (st : ss_stats_t) (s : ss_sock_info_t) (rest : List ss_sock_info_t) :
    stats_add32 (calculate_stats_step st s) (count_stats rest) =
      stats_add32 st (count_stats (s :: rest)) := by
  cases hp : s.protocol
  case SS_PROTO_TCP =>
    cases hs : s.state <;>
      simp [calculate_stats_step, stats_add32, count_stats, count_proto, count_tcp_state,
        List.countP_cons, hp, hs] <;> (simp only [inc32]; omega)
  all_goals
    simp [calculate_stats_step, stats_add32, count_stats, count_proto, count_tcp_state,
      List.countP_cons, hp] <;> (simp only [inc32]; omega)

/-- Adding the counts of the empty list changes nothing. -/
theorem stats_add32_zero (st : ss_stats_t) (h : stats_in_range st) :
    stats_add32 st (count_stats []) = st := by
  obtain ⟨h1, h2, h3, h4, h5, h6, h7, h8, h9, h10, h11, h12, h13, h14, h15⟩ := h
  cases st
  simp only [stats_add32, count_stats, count_proto, count_tcp_state, List.countP_nil,
    Nat.add_zero] at *
  simp only [Nat.mod_eq_of_lt, h1, h2, h3, h4, h5, h6, h7, h8, h9, h10, h11, h12, h13, h14, h15]

/-- From any counters in range, `calculate_stats` adds the counts of the list in
`uint32_t` arithmetic. -/
theorem calculate_stats_eq_add32 (list : List ss_sock_info_t) :
    ∀ st : ss_stats_t, stats_in_range st →
      calculate_stats list st = stats_add32 st (count_stats list) := by
  induction list with
  | nil =>
    intro st h
    rw [stats_add32_zero st h]
    rfl
  | cons s rest ih =>
    intro st h
    rw [← stats_add32_step, ← ih _ (calculate_stats_step_in_range st s h)]
    rfl

/-- A protocol count is at most the length of the list. -/
theorem count_proto_le (p : ss_proto_t) (list : List ss_sock_info_t) :
    count_proto p list ≤ list.length := List.countP_le_length _

/-- A state count is at most the length of the list. -/
theorem count_tcp_state_le (t : ss_tcp_state_t) (list : List ss_sock_info_t) :
    count_tcp_state t list ≤ list.length := List.countP_le_length _

/-- C8: `calculate_stats` applied to zero-initialised counters yields, for every
record list, the counts of the specification reduced modulo `2 ^ 32` (the
counters are `uint32_t`); for a list of fewer than `2 ^ 32` records these are
the counts themselves: `tcp_total`, `udp_total`, `unix_stream_total`,
`unix_dgram_total` are the numbers of records with protocol TCP, UDP,
UNIX_STREAM, UNIX_DGRAM, and the counter of each of the eleven TCP states is the
number of TCP records in that state, records of other protocols contributing
to no state counter. -/
theorem calculate_stats_counts (list : List ss_sock_info_t) :
    calculate_stats list stats_zero = stats_add32 stats_zero (count_stats list) ∧
    (list.length < 2 ^ 32 → calculate_stats list stats_zero = count_stats list) := by
  have hz : stats_in_range stats_zero := by
    unfold stats_in_range stats_zero
    decide
  refine ⟨calculate_stats_eq_add32 list stats_zero hz, ?_⟩
  intro hlen
  rw [calculate_stats_eq_add32 list stats_zero hz]
  have hp : ∀ p, count_proto p list % 2 ^ 32 = count_proto p list := fun p =>
    Nat.mod_eq_of_lt (lt_of_le_of_lt (count_proto_le p list) hlen)
  have ht : ∀ t, count_tcp_state t list % 2 ^ 32 = count_tcp_state t list := fun t =>
    Nat.mod_eq_of_lt (lt_of_le_of_lt (count_tcp_state_le t list) hlen)
  simp only [stats_add32, stats_zero, count_stats, Nat.zero_add, hp, ht]

/-- Witness of C8: three ESTABLISHED and one LISTEN TCP records and one UDP
record give `tcp_total = 4`, `tcp_established = 3`, `tcp_listen = 1`,
`udp_total = 1` and every other counter 0. -/
theorem calculate_stats_counts_witness :
    calculate_stats summary_scenario stats_zero =
      { stats_zero with tcp_total := 4, tcp_established := 3, tcp_listen := 1, udp_total := 1 } :=
  ((calculate_stats_counts summary_scenario).2 (by decide)).trans (by decide)


/-! ## Address rendering -/

/-- A decimal digit character is not the star. -/
theorem digitChar_ne_star (m : Nat) (h : m < 10) : Nat.digitChar m ≠ '*' := by
  interval_cases m <;> decide
/-- No star among the decimal digits that core produces. -/
theorem toDigitsCore_ne_star (f : Nat) : ∀ (n : Nat) (ds : List Char),
    (∀ c ∈ ds, c ≠ '*') → ∀ c ∈ Nat.toDigitsCore 10 f n ds, c ≠ '*' := by
  induction f with
  | zero => intro n ds h; simpa [Nat.toDigitsCore] using h
  | succ f ih =>
    intro n ds h
    have hd : ∀ c ∈ Nat.digitChar (n % 10) :: ds, c ≠ '*' := by
      intro c hc
      rcases List.mem_cons.mp hc with rfl | hc
      · exact digitChar_ne_star _ (Nat.mod_lt _ (by decide))
      · exact h c hc
    unfold Nat.toDigitsCore
    simp only
    split_ifs
    · exact hd
    · exact ih _ _ hd
/-- The digit loop never returns the empty text from a non-empty one. -/
theorem toDigitsCore_ne_nil (f : Nat) : ∀ (n : Nat) (ds : List Char),
    ds ≠ [] → Nat.toDigitsCore 10 f n ds ≠ [] := by
  induction f with
  | zero => intro n ds h; simpa [Nat.toDigitsCore] using h
  | succ f ih =>
    intro n ds h
    unfold Nat.toDigitsCore
    simp only
    split_ifs
    · simp
    · exact ih _ _ (by simp)
/-- The text of `%u` is never empty. -/
theorem fmt_u_ne_nil (n : Nat) : (fmt_u n).data ≠ [] := by
  unfold fmt_u Nat.repr Nat.toDigits
  simp only [List.asString]
  unfold Nat.toDigitsCore
  simp only
  split_ifs
  · simp
  · exact toDigitsCore_ne_nil _ _ _ (by simp)
/-- The text of `%u` contains no star. -/
theorem fmt_u_ne_star (n : Nat) : ∀ c ∈ (fmt_u n).data, c ≠ '*' := by
  unfold fmt_u Nat.repr Nat.toDigits
  simp only [List.asString]
  exact toDigitsCore_ne_star _ _ _ (by simp)
/-- The text of `%u` for a value below `10 ^ e` has at most `e` characters. -/
theorem fmt_u_length (n e : Nat) (he : 0 < e) (h : n < 10 ^ e) : (fmt_u n).length ≤ e :=
  Nat.repr_length n e he h

/-- A text shorter than the buffer is stored whole by `snprintf`. -/
theorem c_snprintf_fits (buflen : Nat) (text : String) (h : text.length < buflen) :
    c_snprintf buflen text = text := by
  unfold c_snprintf
  have hl : text.data.length ≤ buflen - 1 := by
    have : text.data.length = text.length := rfl
    omega
  rw [List.take_of_length_le hl]

/-- A dotted quad has at most 15 characters: it fits the `INET_ADDRSTRLEN`
buffer with its terminator. -/
theorem inet_ntop4_length (a : in_addr) : (inet_ntop4 a).length < INET_ADDRSTRLEN := by
  unfold inet_ntop4 INET_ADDRSTRLEN
  have h0 := fmt_u_length a.o0.val 3 (by decide) (by have := a.o0.isLt; omega)
  have h1 := fmt_u_length a.o1.val 3 (by decide) (by have := a.o1.isLt; omega)
  have h2 := fmt_u_length a.o2.val 3 (by decide) (by have := a.o2.isLt; omega)
  have h3 := fmt_u_length a.o3.val 3 (by decide) (by have := a.o3.isLt; omega)
  have hd : (".").length = 1 := rfl
  simp only [String.length_append, hd]
  omega

/-- Only `0.0.0.0` has the word `INADDR_ANY`. -/
theorem s_addr_ne_any (a : in_addr) (h : a ≠ ⟨0, 0, 0, 0⟩) : a.s_addr ≠ INADDR_ANY := by
  intro hs
  apply h
  obtain ⟨o0, o1, o2, o3⟩ := a
  simp only [in_addr.s_addr, INADDR_ANY] at hs
  have e0 : o0 = 0 := Fin.ext (by simp; omega)
  have e1 : o1 = 0 := Fin.ext (by simp; omega)
  have e2 : o2 = 0 := Fin.ext (by simp; omega)
  have e3 : o3 = 0 := Fin.ext (by simp; omega)
  rw [e0, e1, e2, e3]

/-- A text that ends with the text of `%u` does not end in `:*`. -/
theorem not_ends_in_of_fmt_u (x : String) (n : Nat) : ¬ ends_in (x ++ fmt_u n) ":*" := by
  unfold ends_in
  rintro ⟨t, ht⟩
  have hD := fmt_u_ne_nil n
  have hlast : ((x ++ fmt_u n).data).getLast? = some '*' := by
    rw [← ht]
    simp
  rw [String.data_append, List.getLast?_append_of_ne_nil _ hD] at hlast
  exact fmt_u_ne_star n '*' (List.mem_of_getLast?_eq_some hlast) rfl

/-- A text ends in what was appended last. -/
theorem ends_in_append (x t : String) : ends_in (x ++ t) t := by
  unfold ends_in
  rw [String.data_append]
  exact List.suffix_append _ _

/-- The text `format_addr_v4` leaves in a `MAX_ADDR_LEN` buffer: nothing is cut. -/
theorem format_addr_v4_text (a : in_addr) (p : Nat) (hp : p < 65536) :
    format_addr_v4 a p MAX_ADDR_LEN =
      (if a.s_addr = INADDR_ANY then "*" else inet_ntop4 a) ++
        (if p = 0 then ":*" else ":" ++ fmt_u p) := by
  have hip : (if a.s_addr = INADDR_ANY then "*" else inet_ntop4 a).length ≤ 15 := by
    split_ifs
    · decide
    · have := inet_ntop4_length a
      simp only [INET_ADDRSTRLEN] at this
      omega
  have hport := fmt_u_length p 5 (by decide) (by omega)
  unfold format_addr_v4
  simp only
  by_cases h0 : p = 0
  · rw [if_pos h0, if_pos h0]
    apply c_snprintf_fits
    have hd : (":*").length = 2 := rfl
    simp only [String.length_append, hd, MAX_ADDR_LEN]
    omega
  · rw [if_neg h0, if_neg h0, String.append_assoc]
    apply c_snprintf_fits
    have hd : (":").length = 1 := rfl
    simp only [String.length_append, hd, MAX_ADDR_LEN]
    omega

/-- The text `format_addr_v6` leaves in a `MAX_ADDR_LEN` buffer when the host
text fits its `INET6_ADDRSTRLEN` buffer: nothing is cut. -/
theorem format_addr_v6_text (inet_ntop6 : in6_addr → String) (a : in6_addr) (p : Nat)
    (hp : p < 65536) (hlen : (host_text_v6 inet_ntop6 a).length < INET6_ADDRSTRLEN) :
    format_addr_v6 inet_ntop6 a p MAX_ADDR_LEN =
      "[" ++ host_text_v6 inet_ntop6 a ++ (if p = 0 then "]:*" else "]:" ++ fmt_u p) := by
  have hport := fmt_u_length p 5 (by decide) (by omega)
  unfold format_addr_v6
  simp only
  rw [← host_text_v6]
  simp only [INET6_ADDRSTRLEN] at hlen
  by_cases h0 : p = 0
  · rw [if_pos h0, if_pos h0]
    apply c_snprintf_fits
    have hd : ("]:*").length = 3 := rfl
    have hb : ("[").length = 1 := rfl
    simp only [String.length_append, hd, hb, MAX_ADDR_LEN]
    omega
  · rw [if_neg h0, if_neg h0, String.append_assoc]
    apply c_snprintf_fits
    have hd : ("]:").length = 2 := rfl
    have hb : ("[").length = 1 := rfl
    simp only [String.length_append, hd, hb, MAX_ADDR_LEN]
    omega


/-- C9, as the claim states it, fails: for the address `0.0.0.0` and port 443
`format_addr_v4` does not produce `0.0.0.0:443`. -/
theorem format_addr_v4_any_counterexample :
    format_addr_v4 ⟨0, 0, 0, 0⟩ 443 MAX_ADDR_LEN ≠ "0.0.0.0:443" := by
  decide

/-- C9 (amended): for the address `0.0.0.0` and port 443 `format_addr_v4`
produces `*:443`, the wildcard address being rendered as a star. -/
theorem format_addr_v4_any_443 :
    format_addr_v4 ⟨0, 0, 0, 0⟩ 443 MAX_ADDR_LEN = "*:443" := by
  decide

/-- C10: for every IPv4 address other than `0.0.0.0` and every 16-bit port `p`,
`format_addr_v4` yields the dotted quad followed by `:` and the decimal text of
`p` when `p` is not 0, and followed by `:*` when it is 0. For every IPv6 host
text `h` (one that fits the `INET6_ADDRSTRLEN` buffer it is built in) and
every 16-bit port `p`, `format_addr_v6` yields `[h]:` followed by the decimal
text of `p` when `p` is not 0 and by a star when it is 0. In both, for every
address, the text ends in `:*` exactly when `p` is 0. -/
theorem format_addr_rendering :
    (∀ (a : in_addr) (p : Nat), a ≠ ⟨0, 0, 0, 0⟩ → p < 65536 →
      (p ≠ 0 → format_addr_v4 a p MAX_ADDR_LEN = inet_ntop4 a ++ ":" ++ fmt_u p) ∧
      (p = 0 → format_addr_v4 a p MAX_ADDR_LEN = inet_ntop4 a ++ ":*")) ∧
    (∀ (h : String) (inet_ntop6 : in6_addr → String) (a : in6_addr) (p : Nat),
      host_text_v6 inet_ntop6 a = h → h.length < INET6_ADDRSTRLEN → p < 65536 →
      (p ≠ 0 → format_addr_v6 inet_ntop6 a p MAX_ADDR_LEN = "[" ++ h ++ "]:" ++ fmt_u p) ∧
      (p = 0 → format_addr_v6 inet_ntop6 a p MAX_ADDR_LEN = "[" ++ h ++ "]:" ++ "*")) ∧
    (∀ (a : in_addr) (p : Nat), p < 65536 →
      (ends_in (format_addr_v4 a p MAX_ADDR_LEN) ":*" ↔ p = 0)) ∧
    (∀ (inet_ntop6 : in6_addr → String) (a : in6_addr) (p : Nat),
      (host_text_v6 inet_ntop6 a).length < INET6_ADDRSTRLEN → p < 65536 →
      (ends_in (format_addr_v6 inet_ntop6 a p MAX_ADDR_LEN) ":*" ↔ p = 0)) := by
  refine ⟨?_, ?_, ?_, ?_⟩
  · intro a p ha hp
    rw [format_addr_v4_text a p hp, if_neg (s_addr_ne_any a ha)]
    refine ⟨?_, ?_⟩
    · intro h0
      rw [if_neg h0, String.append_assoc]
    · intro h0
      rw [if_pos h0]
  · intro h inet_ntop6 a p hh hlen hp
    subst hh
    rw [format_addr_v6_text inet_ntop6 a p hp hlen]
    refine ⟨?_, ?_⟩
    · intro h0
      rw [if_neg h0]
      simp only [String.append_assoc]
    · intro h0
      have e : ("]:*" : String) = "]:" ++ "*" := by decide
      rw [if_pos h0, e]
      simp only [String.append_assoc]
  · intro a p hp
    rw [format_addr_v4_text a p hp]
    constructor
    · intro he
      by_contra h0
      rw [if_neg h0, ← String.append_assoc] at he
      exact not_ends_in_of_fmt_u _ _ he
    · intro h0
      rw [if_pos h0]
      exact ends_in_append _ _
  · intro inet_ntop6 a p hlen hp
    rw [format_addr_v6_text inet_ntop6 a p hp hlen]
    constructor
    · intro he
      by_contra h0
      rw [if_neg h0, ← String.append_assoc] at he
      exact not_ends_in_of_fmt_u _ _ he
    · intro h0
      rw [if_pos h0]
      have hs : "[" ++ host_text_v6 inet_ntop6 a ++ "]:*" =
          ("[" ++ host_text_v6 inet_ntop6 a ++ "]") ++ ":*" := by
        rw [String.append_assoc ("[" ++ host_text_v6 inet_ntop6 a)]
        rfl
      rw [hs]
      exact ends_in_append _ _

/-- Witness of C10: `10.0.0.9` with port 443 and with port 0, and the IPv6 host
text `fe80::1` with port 8080. -/
theorem format_addr_rendering_witness :
    format_addr_v4 ⟨10, 0, 0, 9⟩ 443 MAX_ADDR_LEN = "10.0.0.9:443" ∧
    format_addr_v4 ⟨10, 0, 0, 9⟩ 0 MAX_ADDR_LEN = "10.0.0.9:*" ∧
    format_addr_v6 (fun _ => "fe80::1") ⟨fun _ => 1⟩ 8080 MAX_ADDR_LEN = "[fe80::1]:8080" ∧
    (ends_in (format_addr_v4 ⟨10, 0, 0, 9⟩ 443 MAX_ADDR_LEN) ":*" ↔ 443 = 0) ∧
    (ends_in (format_addr_v6 (fun _ => "fe80::1") ⟨fun _ => 1⟩ 0 MAX_ADDR_LEN) ":*" ↔ 0 = 0) :=
  ⟨((format_addr_rendering.1 ⟨10, 0, 0, 9⟩ 443 (by decide) (by decide)).1 (by decide)).trans
      (by decide),
   ((format_addr_rendering.1 ⟨10, 0, 0, 9⟩ 0 (by decide) (by decide)).2 rfl).trans (by decide),
   ((format_addr_rendering.2.1 "fe80::1" (fun _ => "fe80::1") ⟨fun _ => 1⟩ 8080 (by decide)
      (by decide) (by decide)).1 (by decide)).trans (by decide),
   format_addr_rendering.2.2.1 ⟨10, 0, 0, 9⟩ 443 (by decide),
   format_addr_rendering.2.2.2 (fun _ => "fe80::1") ⟨fun _ => 1⟩ 0 (by decide) (by decide)⟩

/-! ## Decoding a descriptor -/

/-- A text of at most `n` characters is copied whole by `strncpy`. -/
theorem c_strncpy_fits (n : Nat) (src : String) (h : src.length ≤ n) : c_strncpy n src = src := by
  unfold c_strncpy
  have hl : src.data.length ≤ n := h
  rw [List.take_of_length_le hl]

/-- C11: for every metadata buffer with family `AF_UNIX` the decoder produces a
record, and in it: if the bound path is non-empty and shorter than
`MAX_ADDR_LEN`, as every path of at most 103 characters is, nothing is cut and
`local_addr` and `unix_path` are both that path; if the path is empty `local_addr` is a star and `unix_path` is empty;
`remote_addr` is `[connected]` when the connected-socket field is non-zero and a
star otherwise; and both ports are 0. -/
theorem decode_socket_unix (inet_ntop6 : in6_addr → String) (pid : Int) (si : socket_fdinfo)
    (hfam : si.soi_family = AF_UNIX) :
    ∃ r : ss_sock_info_t, decode_socket inet_ntop6 pid si = some r ∧
      (si.sun_path ≠ "" → si.sun_path.length < MAX_ADDR_LEN →
        r.local_addr = si.sun_path ∧ r.unix_path = si.sun_path) ∧
      (si.sun_path = "" → r.local_addr = "*" ∧ r.unix_path = "") ∧
      (si.unsi_conn_so ≠ 0 → r.remote_addr = "[connected]") ∧
      (si.unsi_conn_so = 0 → r.remote_addr = "*") ∧
      r.local_port = 0 ∧ r.remote_port = 0 := by
  have h4 : ¬ (si.soi_family = AF_INET ∨ si.soi_family = AF_INET6) := by
    rw [hfam]; decide
  unfold decode_socket
  simp only [h4, if_false, hfam, if_true]
  refine ⟨_, rfl, ?_, ?_, ?_, ?_, ?_, ?_⟩
  · intro hne hlen
    simp only [MAX_ADDR_LEN] at hlen
    have h1 : c_strncpy (MAX_ADDR_LEN - 1) si.sun_path = si.sun_path :=
      c_strncpy_fits _ _ (by simp only [MAX_ADDR_LEN]; omega)
    have h2 : c_strncpy (MAX_PATH_LEN - 1) si.sun_path = si.sun_path :=
      c_strncpy_fits _ _ (by simp only [MAX_PATH_LEN]; omega)
    by_cases hc : si.unsi_conn_so = 0 <;> simp [hne, hc, h1, h2]
  · intro he
    by_cases hc : si.unsi_conn_so = 0 <;> simp [he, hc, sock_zero]
  · intro hc
    by_cases he : si.sun_path = "" <;> simp [he, hc]
  · intro hc
    by_cases he : si.sun_path = "" <;> simp [he, hc]
  · by_cases hc : si.unsi_conn_so = 0 <;> by_cases he : si.sun_path = "" <;>
      simp [he, hc, sock_zero]
  · by_cases hc : si.unsi_conn_so = 0 <;> by_cases he : si.sun_path = "" <;>
      simp [he, hc, sock_zero]

/-- Witness of C11: a stream socket bound to `/var/run/example.sock` with no
peer gives `local_addr = /var/run/example.sock` and `remote_addr = *`. -/
theorem decode_socket_unix_witness :
    ∃ r : ss_sock_info_t, decode_socket inet_ntop6_unused 100 si_example_sock = some r ∧
      r.local_addr = "/var/run/example.sock" ∧ r.unix_path = "/var/run/example.sock" ∧
      r.remote_addr = "*" ∧ r.local_port = 0 ∧ r.remote_port = 0 :=
  match decode_socket_unix inet_ntop6_unused 100 si_example_sock rfl with
  | ⟨r, hr, hpath, _, _, hfree, hl, hp⟩ =>
    ⟨r, hr, (hpath (by decide) (by decide)).1, (hpath (by decide) (by decide)).2,
      hfree rfl, hl, hp⟩

/-- What a decoded record looks like, by the branch of the decoder that made
it. -/
theorem decode_socket_cases (inet_ntop6 : in6_addr → String) (pid : Int) (si : socket_fdinfo)
    (r : ss_sock_info_t) (h : decode_socket inet_ntop6 pid si = some r) :
    r.pid = pid ∧ r.fd = 0 ∧
    ((si.soi_family = AF_INET ∧ r.family = SS_FAMILY_INET ∨
        si.soi_family = AF_INET6 ∧ r.family = SS_FAMILY_INET6) ∧
      (si.soi_protocol = IPPROTO_TCP ∧ r.protocol = SS_PROTO_TCP ∧
          r.state = darwin_to_ss_state si.tcpsi_state ∨
        si.soi_protocol = IPPROTO_UDP ∧ r.protocol = SS_PROTO_UDP ∧
          r.state = SS_TCP_UNKNOWN) ∨
     si.soi_family = AF_UNIX ∧ r.family = SS_FAMILY_UNIX ∧
      (r.protocol = SS_PROTO_UNIX_STREAM ∨ r.protocol = SS_PROTO_UNIX_DGRAM) ∧
      r.state = SS_TCP_UNKNOWN ∧ r.local_port = 0 ∧ r.remote_port = 0 ∧
      (r.unix_path = "" → r.local_addr = "*") ∧
      (r.remote_addr = "[connected]" ∨ r.remote_addr = "*")) := by
  unfold decode_socket at h
  have hut : ¬ (IPPROTO_UDP = IPPROTO_TCP) := by decide
  have h64 : ¬ (AF_INET6 = AF_INET) := by decide
  by_cases h4 : si.soi_family = AF_INET
  · by_cases ht : si.soi_protocol = IPPROTO_TCP
    · simp [h4, ht] at h
      subst h
      simp [sock_zero, ht, h4]
    · by_cases hu : si.soi_protocol = IPPROTO_UDP
      · simp [h4, hu, hut] at h
        subst h
        simp [sock_zero, hu, h4]
      · simp [h4, ht, hu] at h
  · by_cases h6 : si.soi_family = AF_INET6
    · by_cases ht : si.soi_protocol = IPPROTO_TCP
      · simp [h4, h6, ht, h64] at h
        subst h
        simp [sock_zero, ht, h6, h64]
      · by_cases hu : si.soi_protocol = IPPROTO_UDP
        · simp [h4, h6, hu, hut, h64] at h
          subst h
          simp [sock_zero, hu, h6, h64]
        · simp [h4, h6, ht, hu] at h
    · by_cases h1 : si.soi_family = AF_UNIX
      · have hu4 : ¬ (AF_UNIX = AF_INET) := by decide
        have hu6 : ¬ (AF_UNIX = AF_INET6) := by decide
        simp only [h1, hu4, hu6, or_self, if_false, if_true, Option.some.injEq] at h
        subst h
        by_cases hs : si.soi_type = SOCK_STREAM <;> by_cases hc : si.unsi_conn_so = 0 <;>
          by_cases he : si.sun_path = "" <;> simp [sock_zero, hs, hc, he, h1]
        all_goals
          intro hcut
          exfalso
          apply he
          have : si.sun_path.data = [] := by
            have h0 : (c_strncpy (MAX_PATH_LEN - 1) si.sun_path).data = [] := by rw [hcut]
            simp only [c_strncpy, MAX_PATH_LEN] at h0
            cases hd : si.sun_path.data with
            | nil => rfl
            | cons c cs => rw [hd] at h0; simp at h0
          cases hsp : si.sun_path
          simp_all
      · simp [h4, h6, h1] at h

/-- C13: every record the decode step produces whose protocol is not TCP (so
UDP, UNIX_STREAM or UNIX_DGRAM) has state UNKNOWN, whatever the buffer holds,
and the (family, protocol) pair of every decoded record is one of (INET, TCP),
(INET, UDP), (INET6, TCP), (INET6, UDP), (UNIX, UNIX_STREAM),
(UNIX, UNIX_DGRAM). -/
theorem decode_socket_state_pairs (inet_ntop6 : in6_addr → String) (pid : Int)
    (si : socket_fdinfo) (r : ss_sock_info_t)
    (h : decode_socket inet_ntop6 pid si = some r) :
    (r.protocol ≠ SS_PROTO_TCP → r.state = SS_TCP_UNKNOWN) ∧
    (r.protocol = SS_PROTO_UDP ∨ r.protocol = SS_PROTO_UNIX_STREAM ∨
      r.protocol = SS_PROTO_UNIX_DGRAM → r.state = SS_TCP_UNKNOWN) ∧
    (r.family, r.protocol) ∈
      [(SS_FAMILY_INET, SS_PROTO_TCP), (SS_FAMILY_INET, SS_PROTO_UDP),
       (SS_FAMILY_INET6, SS_PROTO_TCP), (SS_FAMILY_INET6, SS_PROTO_UDP),
       (SS_FAMILY_UNIX, SS_PROTO_UNIX_STREAM), (SS_FAMILY_UNIX, SS_PROTO_UNIX_DGRAM)] := by
  obtain ⟨_, _, hc⟩ := decode_socket_cases inet_ntop6 pid si r h
  have hstate : r.protocol ≠ SS_PROTO_TCP → r.state = SS_TCP_UNKNOWN := by
    intro hp
    rcases hc with ⟨_, ⟨_, ht, _⟩ | ⟨_, _, hs⟩⟩ | ⟨_, _, _, hs, _⟩
    · exact absurd ht hp
    · exact hs
    · exact hs
  refine ⟨hstate, ?_, ?_⟩
  · intro hp
    apply hstate
    rcases hp with hp | hp | hp <;> rw [hp] <;> decide
  · rcases hc with ⟨⟨_, hf⟩ | ⟨_, hf⟩, ⟨_, hp, _⟩ | ⟨_, hp, _⟩⟩ | ⟨_, hf, hp | hp, _⟩ <;>
      rw [hf, hp] <;> decide

/-- Witness of C13: the record decoded from the buffer of a bound UNIX stream
socket. -/
theorem decode_socket_state_pairs_witness :
    (example_sock_record.protocol ≠ SS_PROTO_TCP → example_sock_record.state = SS_TCP_UNKNOWN) ∧
    (example_sock_record.protocol = SS_PROTO_UDP ∨
      example_sock_record.protocol = SS_PROTO_UNIX_STREAM ∨
      example_sock_record.protocol = SS_PROTO_UNIX_DGRAM →
      example_sock_record.state = SS_TCP_UNKNOWN) ∧
    (example_sock_record.family, example_sock_record.protocol) ∈
      [(SS_FAMILY_INET, SS_PROTO_TCP), (SS_FAMILY_INET, SS_PROTO_UDP),
       (SS_FAMILY_INET6, SS_PROTO_TCP), (SS_FAMILY_INET6, SS_PROTO_UDP),
       (SS_FAMILY_UNIX, SS_PROTO_UNIX_STREAM), (SS_FAMILY_UNIX, SS_PROTO_UNIX_DGRAM)] :=
  decode_socket_state_pairs inet_ntop6_unused 100 si_example_sock example_sock_record
    (by decide)

/-- The decoder skips a buffer exactly when its family is INET or INET6 with a
transport other than TCP and UDP, or its family is none of INET, INET6, UNIX. -/
theorem decode_socket_none_iff (inet_ntop6 : in6_addr → String) (pid : Int)
    (si : socket_fdinfo) :
    decode_socket inet_ntop6 pid si = none ↔
      ((si.soi_family = AF_INET ∨ si.soi_family = AF_INET6) ∧
        si.soi_protocol ≠ IPPROTO_TCP ∧ si.soi_protocol ≠ IPPROTO_UDP) ∨
      (si.soi_family ≠ AF_INET ∧ si.soi_family ≠ AF_INET6 ∧ si.soi_family ≠ AF_UNIX) := by
  have hut : ¬ (IPPROTO_UDP = IPPROTO_TCP) := by decide
  have h64 : ¬ (AF_INET6 = AF_INET) := by decide
  have h46 : ¬ (AF_INET = AF_INET6) := by decide
  have hu4 : ¬ (AF_UNIX = AF_INET) := by decide
  have hu6 : ¬ (AF_UNIX = AF_INET6) := by decide
  have h4u : ¬ (AF_INET = AF_UNIX) := by decide
  have h6u : ¬ (AF_INET6 = AF_UNIX) := by decide
  obtain ⟨fam, ty, proto, st, la4, fa4, la6, fa6, lp, fp, rq, sq, path, conn⟩ := si
  unfold decode_socket
  simp only
  by_cases h4 : fam = AF_INET
  · subst h4
    by_cases ht : proto = IPPROTO_TCP
    · subst ht
      simp
    · by_cases hu : proto = IPPROTO_UDP
      · subst hu
        simp [hut]
      · simp [ht, hu]
  · by_cases h6 : fam = AF_INET6
    · subst h6
      by_cases ht : proto = IPPROTO_TCP
      · subst ht
        simp
      · by_cases hu : proto = IPPROTO_UDP
        · subst hu
          simp [hut]
        · simp [ht, hu]
    · by_cases h1 : fam = AF_UNIX
      · subst h1
        simp [hu4, hu6]
      · simp [h4, h6, h1]

/-- C18: the decode step produces no record when the family of the buffer is
INET or INET6 and its transport protocol is neither TCP nor UDP, and when the
family is none of INET, INET6, UNIX; the loop body then leaves the list as it
was. In every other case it produces one record, and when the descriptor is a
socket whose metadata was retrieved this record is the one candidate handed to
the filter, duplicate check and insertion. -/
theorem decode_socket_skips (inet_ntop6 : in6_addr → String) (pid : Int) (si : socket_fdinfo) :
    ((si.soi_family = AF_INET ∨ si.soi_family = AF_INET6) →
      si.soi_protocol ≠ IPPROTO_TCP → si.soi_protocol ≠ IPPROTO_UDP →
      decode_socket inet_ntop6 pid si = none) ∧
    (si.soi_family ≠ AF_INET → si.soi_family ≠ AF_INET6 → si.soi_family ≠ AF_UNIX →
      decode_socket inet_ntop6 pid si = none) ∧
    (((si.soi_family = AF_INET ∨ si.soi_family = AF_INET6) ∧
        (si.soi_protocol = IPPROTO_TCP ∨ si.soi_protocol = IPPROTO_UDP)) ∨
      si.soi_family = AF_UNIX →
      ∃ r : ss_sock_info_t, decode_socket inet_ntop6 pid si = some r) ∧
    (∀ (opts : ss_options_t) (proc_name : String) (list : List ss_sock_info_t) (e : fd_entry),
      e.si = si → decode_socket inet_ntop6 pid si = none →
      collect_fd inet_ntop6 opts pid proc_name list e = list) ∧
    (∀ (opts : ss_options_t) (proc_name : String) (list : List ss_sock_info_t) (e : fd_entry)
      (r : ss_sock_info_t),
      e.si = si → e.proc_fdtype = PROX_FDTYPE_SOCKET → 0 < e.ret →
      decode_socket inet_ntop6 pid si = some r →
      collect_fd inet_ntop6 opts pid proc_name list e =
        collect_record opts list
          { sock := r, proc_name := proc_name, malloc_ok := e.malloc_ok }) := by
  refine ⟨?_, ?_, ?_, ?_, ?_⟩
  · intro hf ht hu
    exact (decode_socket_none_iff inet_ntop6 pid si).mpr (Or.inl ⟨hf, ht, hu⟩)
  · intro h4 h6 h1
    exact (decode_socket_none_iff inet_ntop6 pid si).mpr (Or.inr ⟨h4, h6, h1⟩)
  · intro h
    cases hd : decode_socket inet_ntop6 pid si with
    | some r => exact ⟨r, rfl⟩
    | none =>
      exfalso
      rcases (decode_socket_none_iff inet_ntop6 pid si).mp hd with ⟨_, ht, hu⟩ | ⟨h4, h6, h1⟩
      · rcases h with ⟨_, hp | hp⟩ | h1
        · exact ht hp
        · exact hu hp
        · rcases ‹si.soi_family = AF_INET ∨ si.soi_family = AF_INET6› with h4 | h6
          · rw [h1] at h4
            exact absurd h4 (by decide)
          · rw [h1] at h6
            exact absurd h6 (by decide)
      · rcases h with ⟨h46, _⟩ | hu
        · rcases h46 with h | h
          · exact h4 h
          · exact h6 h
        · exact h1 hu
  · intro opts proc_name list e he hd
    unfold collect_fd
    rw [he, hd]
    split_ifs <;> rfl
  · intro opts proc_name list e r he hty hret hd
    unfold collect_fd
    rw [he, hd, if_neg (not_not.mpr hty), if_neg (not_le.mpr hret)]

/-- Witness of C18: a raw ICMP socket over IPv4 and a buffer of family 17 are
skipped, a listening TCP socket is decoded. -/
theorem decode_socket_skips_witness :
    decode_socket inet_ntop6_unused 100 si_icmp = none ∧
    decode_socket inet_ntop6_unused 100 { si_zero with soi_family := 17 } = none ∧
    (∃ r : ss_sock_info_t, decode_socket inet_ntop6_unused 100 si_listen_22 = some r) :=
  ⟨(decode_socket_skips inet_ntop6_unused 100 si_icmp).1 (Or.inl rfl) (by decide) (by decide),
   (decode_socket_skips inet_ntop6_unused 100 { si_zero with soi_family := 17 }).2.1
      (by decide) (by decide) (by decide),
   (decode_socket_skips inet_ntop6_unused 100 si_listen_22).2.2.1
      (Or.inl ⟨Or.inl rfl, Or.inl rfl⟩)⟩

/-- C14: every record with family INET, protocol TCP and state LISTEN is
included under the default config (all flags false, then the default protocol
substitution), and excluded under the same config with `ipv6_only` set, whether
the flag is set before or after the substitution. -/
theorem should_include_listen_scenario (r : ss_sock_info_t)
    (hf : r.family = SS_FAMILY_INET) (hp : r.protocol = SS_PROTO_TCP)
    (hs : r.state = SS_TCP_LISTEN) :
    should_include r (main_default_protocols opts_zero) = true ∧
    should_include r (main_default_protocols { opts_zero with ipv6_only := true }) = false ∧
    should_include r { main_default_protocols opts_zero with ipv6_only := true } = false := by
  refine ⟨?_, ?_, ?_⟩
  · rw [should_include_iff, protocol_gate_iff, listening_gate_iff, default_state_gate_iff,
      family_gate_iff]
    simp [main_default_protocols, opts_zero, hf, hp, hs]
  · rw [Bool.eq_false_iff]
    intro h
    have hg := (family_gate_iff r _).mp ((should_include_iff r _).mp h).2.2.2
    have := hg.2 (by decide)
    rw [hf] at this
    exact absurd this (by decide)
  · rw [Bool.eq_false_iff]
    intro h
    have hg := (family_gate_iff r _).mp ((should_include_iff r _).mp h).2.2.2
    have := hg.2 (by decide)
    rw [hf] at this
    exact absurd this (by decide)

/-- Witness of C14: the record decoded from a TCP socket over IPv4 listening on
port 22, with remote port 0. -/
theorem should_include_listen_scenario_witness :
    decode_socket inet_ntop6_unused 100 si_listen_22 = some listen_22_record ∧
    listen_22_record.local_port = 22 ∧ listen_22_record.remote_port = 0 ∧
    should_include listen_22_record (main_default_protocols opts_zero) = true ∧
    should_include listen_22_record
      (main_default_protocols { opts_zero with ipv6_only := true }) = false ∧
    should_include listen_22_record
      { main_default_protocols opts_zero with ipv6_only := true } = false :=
  ⟨by decide, rfl, rfl, should_include_listen_scenario listen_22_record rfl rfl rfl⟩

/-- C17 at its failing input: process 100 holds its listening sockets through
the descriptors 4 and 7; both records of the final list carry pid 100, and both
carry `fd = 0`, the value left by `sock = {0}`, instead of 4 and 7. -/
theorem collect_all_sockets_fd_unset :
    (proc_100.fdinfo.map (fun e => e.proc_fd) = [4, 7]) ∧
    (collect_all_sockets inet_ntop6_unused sys_100
        (main_default_protocols { opts_zero with show_process := true })).map
      (fun r => (r.pid, r.fd, r.local_port, r.proc_name)) =
      [(100, 0, 80, "sshd"), (100, 0, 22, "sshd")] := by
  decide

/-! ## The scan and the order of the list -/

/-- Handling two runs of records one after the other is handling their
concatenation. -/
theorem collect_records_append (opts : ss_options_t) (a b : List decoded_fd) :
    ∀ list : List ss_sock_info_t,
      collect_records opts list (a ++ b) =
        collect_records opts (collect_records opts list a) b := by
  induction a with
  | nil => intro list; rfl
  | cons d rest ih =>
    intro list
    show collect_records opts (collect_record opts list d) (rest ++ b) = _
    rw [ih]
    rfl

/-- The loop body decodes the entry and, if a record comes out, hands it on. -/
theorem collect_fd_eq (inet_ntop6 : in6_addr → String) (opts : ss_options_t) (pid : Int)
    (proc_name : String) (list : List ss_sock_info_t) (e : fd_entry) :
    collect_fd inet_ntop6 opts pid proc_name list e =
      match fd_record inet_ntop6 pid proc_name e with
      | none => list
      | some d => collect_record opts list d := by
  unfold collect_fd fd_record
  split_ifs
  · rfl
  · rfl
  · cases decode_socket inet_ntop6 pid e.si <;> rfl

/-- The descriptor loop handles the records decoded from the entries. -/
theorem collect_fds_eq (inet_ntop6 : in6_addr → String) (opts : ss_options_t) (pid : Int)
    (proc_name : String) (es : List fd_entry) :
    ∀ list : List ss_sock_info_t,
      collect_fds inet_ntop6 opts pid proc_name list es =
        collect_records opts list (fd_records inet_ntop6 pid proc_name es) := by
  induction es with
  | nil => intro list; rfl
  | cons e rest ih =>
    intro list
    unfold collect_fds fd_records
    rw [ih, collect_fd_eq]
    cases fd_record inet_ntop6 pid proc_name e <;> rfl

/-- Walking a process handles the records decoded from it. -/
theorem collect_process_sockets_eq (inet_ntop6 : in6_addr → String) (p : proc_snapshot)
    (list : List ss_sock_info_t) (opts : ss_options_t) :
    collect_process_sockets inet_ntop6 p list opts =
      collect_records opts list (process_records inet_ntop6 p) := by
  unfold collect_process_sockets process_records
  split_ifs
  · rfl
  · rfl
  · rfl
  · exact collect_fds_eq _ _ _ _ _ _

/-- The process loop handles the records of the scan, in scan order. -/
theorem collect_pids_eq (inet_ntop6 : in6_addr → String) (opts : ss_options_t)
    (ps : List proc_snapshot) :
    ∀ list : List ss_sock_info_t,
      collect_pids inet_ntop6 opts list ps =
        collect_records opts list (scan_records inet_ntop6 ps) := by
  induction ps with
  | nil => intro list; rfl
  | cons p rest ih =>
    intro list
    unfold collect_pids scan_records
    split_ifs
    · exact ih list
    · rw [ih, collect_process_sockets_eq, collect_records_append]

/-- The list `collect_all_sockets` returns is the empty list after the records
of the whole scan have been handled. -/
theorem collect_all_sockets_eq (inet_ntop6 : in6_addr → String) (sys : pid_listing)
    (opts : ss_options_t) :
    collect_all_sockets inet_ntop6 sys opts =
      collect_records opts [] (all_records inet_ntop6 sys) := by
  unfold collect_all_sockets all_records
  split_ifs
  · rfl
  · rfl
  · rfl
  · exact collect_pids_eq _ _ _ _

/-- The loop body puts the copy of the record at the head exactly when the
record passes the filter, no entry has its key and memory is obtained. -/
theorem collect_record_eq_inserted (opts : ss_options_t) (list : List ss_sock_info_t)
    (d : decoded_fd) :
    collect_record opts list d =
      if should_include d.sock opts = true ∧
          (∀ a ∈ list, identity_key a ≠ identity_key d.sock) ∧ d.malloc_ok = true then
        inserted_record opts d :: list
      else list := by
  have hex : socket_exists list d.sock = true ↔
      ¬ ∀ a ∈ list, identity_key a ≠ identity_key d.sock := by
    rw [socket_exists_iff]
    push_neg
    rfl
  unfold collect_record inserted_record add_to_list
  cases hi : should_include d.sock opts
  · simp
  cases he : socket_exists list d.sock
  · have hall : ∀ a ∈ list, identity_key a ≠ identity_key d.sock := by
      by_contra hn
      have := hex.mpr hn
      rw [he] at this
      exact absurd this (by decide)
    cases hm : d.malloc_ok
    · simp
    · simp only [Bool.true_eq_false, if_false, true_and, and_true]
      rw [if_pos hall]
      simp
  · have hnall : ¬ ∀ a ∈ list, identity_key a ≠ identity_key d.sock := hex.mp he
    simp only [Bool.true_eq_false, if_false, if_true, true_and]
    rw [if_neg (fun h => hnall h.1)]

/-- The list is at every moment the reverse of the accepted records. -/
theorem collect_records_eq_reverse (opts : ss_options_t) (ds : List decoded_fd) :
    ∀ acc : List ss_sock_info_t,
      collect_records opts acc.reverse ds = (accepted_records opts acc ds).reverse := by
  induction ds with
  | nil => intro acc; rfl
  | cons d rest ih =>
    intro acc
    unfold collect_records accepted_records
    rw [collect_record_eq_inserted]
    have hmem : (∀ a ∈ acc.reverse, identity_key a ≠ identity_key d.sock) ↔
        ∀ a ∈ acc, identity_key a ≠ identity_key d.sock := by
      simp only [List.mem_reverse]
    by_cases hc : should_include d.sock opts = true ∧
        (∀ a ∈ acc, identity_key a ≠ identity_key d.sock) ∧ d.malloc_ok = true
    · rw [if_pos hc, if_pos ⟨hc.1, hmem.mpr hc.2.1, hc.2.2⟩, ← ih]
      congr 1
      simp
    · rw [if_neg hc, if_neg (fun h => hc ⟨h.1, hmem.mp h.2.1, h.2.2⟩), ih]

/-- The scan only adds entries, at the head, each the copy of a record of the
scan that passes the filter. -/
theorem collect_records_grows (opts : ss_options_t) (ds : List decoded_fd) :
    ∀ list : List ss_sock_info_t, ∃ added : List ss_sock_info_t,
      collect_records opts list ds = added ++ list ∧
      ∀ e ∈ added, ∃ d ∈ ds, should_include d.sock opts = true ∧
        e = inserted_record opts d := by
  induction ds with
  | nil => intro list; exact ⟨[], rfl, by simp⟩
  | cons d rest ih =>
    intro list
    obtain ⟨added, heq, hsrc⟩ := ih (collect_record opts list d)
    rw [collect_record_eq_inserted] at heq
    by_cases hc : should_include d.sock opts = true ∧
        (∀ a ∈ list, identity_key a ≠ identity_key d.sock) ∧ d.malloc_ok = true
    · rw [if_pos hc] at heq
      refine ⟨added ++ [inserted_record opts d], ?_, ?_⟩
      · show collect_records opts (collect_record opts list d) rest = _
        rw [collect_record_eq_inserted, if_pos hc, heq]
        simp
      · intro e he
        rcases List.mem_append.mp he with he | he
        · obtain ⟨d', hd', h⟩ := hsrc e he
          exact ⟨d', List.mem_cons_of_mem _ hd', h⟩
        · rw [List.mem_singleton] at he
          exact ⟨d, List.mem_cons_self _ _, hc.1, he⟩
    · rw [if_neg hc] at heq
      refine ⟨added, ?_, ?_⟩
      · show collect_records opts (collect_record opts list d) rest = _
        rw [collect_record_eq_inserted, if_neg hc, heq]
      · intro e he
        obtain ⟨d', hd', h⟩ := hsrc e he
        exact ⟨d', List.mem_cons_of_mem _ hd', h⟩

/-- The records of two runs of processes are those of the first run followed by
those of the second. -/
theorem scan_records_append (inet_ntop6 : in6_addr → String) (ps qs : List proc_snapshot) :
    scan_records inet_ntop6 (ps ++ qs) =
      scan_records inet_ntop6 ps ++ scan_records inet_ntop6 qs := by
  induction ps with
  | nil => rfl
  | cons p rest ih =>
    show scan_records inet_ntop6 (p :: (rest ++ qs)) = _
    by_cases hp : p.pid = 0
    · simp only [scan_records, hp, if_true, ih]
    · simp only [scan_records, hp, if_false, ih, List.append_assoc]

/-- A record of the descriptor loop is decoded from one of the entries. -/
theorem mem_fd_records (inet_ntop6 : in6_addr → String) (pid : Int) (proc_name : String)
    (es : List fd_entry) (d : decoded_fd) (hd : d ∈ fd_records inet_ntop6 pid proc_name es) :
    ∃ e ∈ es, decode_socket inet_ntop6 pid e.si = some d.sock := by
  induction es with
  | nil => simp [fd_records] at hd
  | cons e rest ih =>
    unfold fd_records at hd
    cases hr : fd_record inet_ntop6 pid proc_name e with
    | none =>
      rw [hr] at hd
      obtain ⟨e', he', h⟩ := ih hd
      exact ⟨e', List.mem_cons_of_mem _ he', h⟩
    | some d' =>
      rw [hr] at hd
      rcases List.mem_cons.mp hd with hd | hd
      · refine ⟨e, List.mem_cons_self _ _, ?_⟩
        unfold fd_record at hr
        split_ifs at hr
        cases hdec : decode_socket inet_ntop6 pid e.si with
        | none => rw [hdec] at hr; simp at hr
        | some sock =>
          rw [hdec] at hr
          simp only [Option.some.injEq] at hr
          rw [hd, ← hr]
      · obtain ⟨e', he', h⟩ := ih hd
        exact ⟨e', List.mem_cons_of_mem _ he', h⟩

/-- A record of the scan is decoded from a descriptor of a scanned process. -/
theorem mem_scan_records (inet_ntop6 : in6_addr → String) (ps : List proc_snapshot)
    (d : decoded_fd) (hd : d ∈ scan_records inet_ntop6 ps) :
    ∃ p ∈ ps, ∃ e ∈ p.fdinfo, decode_socket inet_ntop6 p.pid e.si = some d.sock := by
  induction ps with
  | nil => simp [scan_records] at hd
  | cons p rest ih =>
    unfold scan_records at hd
    split_ifs at hd
    · obtain ⟨p', hp', h⟩ := ih hd
      exact ⟨p', List.mem_cons_of_mem _ hp', h⟩
    · rcases List.mem_append.mp hd with hd | hd
      · refine ⟨p, List.mem_cons_self _ _, ?_⟩
        unfold process_records at hd
        split_ifs at hd
        · simp at hd
        · simp at hd
        · simp at hd
        · obtain ⟨e, he, h⟩ := mem_fd_records _ _ _ _ d hd
          exact ⟨e, List.mem_of_mem_take he, h⟩
      · obtain ⟨p', hp', h⟩ := ih hd
        exact ⟨p', List.mem_cons_of_mem _ hp', h⟩

/-- A record of the whole scan is decoded from a descriptor of a listed
process. -/
theorem mem_all_records (inet_ntop6 : in6_addr → String) (sys : pid_listing)
    (d : decoded_fd) (hd : d ∈ all_records inet_ntop6 sys) :
    ∃ p ∈ sys.procs, ∃ e ∈ p.fdinfo, decode_socket inet_ntop6 p.pid e.si = some d.sock := by
  unfold all_records at hd
  split_ifs at hd
  · simp at hd
  · simp at hd
  · simp at hd
  · obtain ⟨p, hp, h⟩ := mem_scan_records _ _ d hd
    exact ⟨p, List.mem_of_mem_take hp, h⟩

/-- An entry of the final list is a decoded record, up to its process name. -/
theorem mem_collect_all_sockets (inet_ntop6 : in6_addr → String) (sys : pid_listing)
    (opts : ss_options_t) (r : ss_sock_info_t)
    (hr : r ∈ collect_all_sockets inet_ntop6 sys opts) :
    ∃ p ∈ sys.procs, ∃ e ∈ p.fdinfo, ∃ s : ss_sock_info_t,
      decode_socket inet_ntop6 p.pid e.si = some s ∧
      ∃ name : String, r = { s with proc_name := name } := by
  rw [collect_all_sockets_eq] at hr
  obtain ⟨added, heq, hsrc⟩ := collect_records_grows opts (all_records inet_ntop6 sys) []
  rw [heq, List.append_nil] at hr
  obtain ⟨d, hd, _, he⟩ := hsrc r hr
  obtain ⟨p, hp, e, hefd, hdec⟩ := mem_all_records inet_ntop6 sys d hd
  refine ⟨p, hp, e, hefd, d.sock, hdec, ?_⟩
  rw [he]
  unfold inserted_record
  split_ifs
  · exact ⟨_, rfl⟩
  · exact ⟨d.sock.proc_name, rfl⟩

/-- A record of the scan is a record of one of the scanned processes, with a
non-zero pid. -/
theorem mem_scan_records_process (inet_ntop6 : in6_addr → String) (ps : List proc_snapshot)
    (d : decoded_fd) (hd : d ∈ scan_records inet_ntop6 ps) :
    ∃ p ∈ ps, p.pid ≠ 0 ∧ d ∈ process_records inet_ntop6 p := by
  induction ps with
  | nil => simp [scan_records] at hd
  | cons p rest ih =>
    unfold scan_records at hd
    split_ifs at hd with hp
    · obtain ⟨p', hp', h⟩ := ih hd
      exact ⟨p', List.mem_cons_of_mem _ hp', h⟩
    · rcases List.mem_append.mp hd with hd | hd
      · exact ⟨p, List.mem_cons_self _ _, hp, hd⟩
      · obtain ⟨p', hp', h⟩ := ih hd
        exact ⟨p', List.mem_cons_of_mem _ hp', h⟩

/-- The final list is the reverse of the accepted records of the scan. -/
theorem collect_all_sockets_eq_reverse (inet_ntop6 : in6_addr → String) (sys : pid_listing)
    (opts : ss_options_t) :
    collect_all_sockets inet_ntop6 sys opts =
      (accepted_records opts [] (all_records inet_ntop6 sys)).reverse := by
  rw [collect_all_sockets_eq]
  exact collect_records_eq_reverse opts _ []

/-- C15, as the claim states it, fails: process 100 holds the listening sockets
of ports 22 and 80 in this order; the record of port 22 is accepted first, yet
in the final list the record of port 80 comes first and the record of port 22
does not precede it. -/
theorem first_seen_order_counterexample :
    accepted_records (main_default_protocols opts_zero) []
        (all_records inet_ntop6_unused sys_100) = [listen_22_record, listen_80_record] ∧
    collect_all_sockets inet_ntop6_unused sys_100 (main_default_protocols opts_zero) =
      [listen_80_record, listen_22_record] ∧
    ¬ List.Sublist [listen_22_record, listen_80_record]
      (collect_all_sockets inet_ntop6_unused sys_100 (main_default_protocols opts_zero)) := by
  have h1 : accepted_records (main_default_protocols opts_zero) []
      (all_records inet_ntop6_unused sys_100) = [listen_22_record, listen_80_record] := by
    decide
  have h2 : collect_all_sockets inet_ntop6_unused sys_100 (main_default_protocols opts_zero) =
      [listen_80_record, listen_22_record] := by
    decide
  refine ⟨h1, h2, ?_⟩
  rw [h2]
  decide

/-- C15 (amended): the final list of `collect_all_sockets`, traversed from its
head, lists the retained records in the reverse of the order in which they were
first observed: if record `a` was accepted before record `b`, then `b` precedes
`a` in the list. -/
theorem collect_all_sockets_reverses_first_seen (inet_ntop6 : in6_addr → String)
    (sys : pid_listing) (opts : ss_options_t) (a b : ss_sock_info_t)
    (h : List.Sublist [a, b] (accepted_records opts [] (all_records inet_ntop6 sys))) :
    List.Sublist [b, a] (collect_all_sockets inet_ntop6 sys opts) := by
  rw [collect_all_sockets_eq_reverse]
  exact h.reverse

/-- Witness of amended C15: the records of ports 22 and 80 of process 100. -/
theorem collect_all_sockets_reverses_first_seen_witness :
    List.Sublist [listen_80_record, listen_22_record]
      (collect_all_sockets inet_ntop6_unused sys_100 (main_default_protocols opts_zero)) :=
  collect_all_sockets_reverses_first_seen inet_ntop6_unused sys_100
    (main_default_protocols opts_zero) listen_22_record listen_80_record (by decide)

/-- C16: for every scan the list `collect_all_sockets` returns is exactly the
reverse of the sequence of accepted records (filtered, not duplicate, inserted)
in insertion order; and when a run of processes `qs` is scanned after a run
`ps`, the list is the entries added while `qs` is walked, each the copy of a
record of a process of `qs`, followed by the whole list as it was after `ps`:
every retained record of a later-scanned process precedes every retained record
of an earlier-scanned one. -/
theorem collect_all_sockets_reverse_order (inet_ntop6 : in6_addr → String)
    (opts : ss_options_t) :
    (∀ sys : pid_listing,
      collect_all_sockets inet_ntop6 sys opts =
        (accepted_records opts [] (all_records inet_ntop6 sys)).reverse) ∧
    (∀ ps qs : List proc_snapshot, ∃ added : List ss_sock_info_t,
      collect_pids inet_ntop6 opts [] (ps ++ qs) =
        added ++ collect_pids inet_ntop6 opts [] ps ∧
      ∀ r ∈ added, ∃ q ∈ qs, ∃ d ∈ process_records inet_ntop6 q,
        r = inserted_record opts d) := by
  refine ⟨fun sys => collect_all_sockets_eq_reverse inet_ntop6 sys opts, ?_⟩
  intro ps qs
  obtain ⟨added, heq, hsrc⟩ :=
    collect_records_grows opts (scan_records inet_ntop6 qs)
      (collect_records opts [] (scan_records inet_ntop6 ps))
  refine ⟨added, ?_, ?_⟩
  · rw [collect_pids_eq, collect_pids_eq, scan_records_append, collect_records_append]
    exact heq
  · intro r hr
    obtain ⟨d, hd, _, he⟩ := hsrc r hr
    obtain ⟨q, hq, _, hdq⟩ := mem_scan_records_process inet_ntop6 qs d hd
    exact ⟨q, hq, d, hdq, he⟩

/-- Witness of C16: process 100 (ports 22, 80) is scanned before process 200
(port 443); the list is 443, 80, 22. -/
theorem collect_all_sockets_reverse_order_witness :
    collect_all_sockets inet_ntop6_unused sys_100_200 (main_default_protocols opts_zero) =
      [listen_443_record, listen_80_record, listen_22_record] ∧
    accepted_records (main_default_protocols opts_zero) []
        (all_records inet_ntop6_unused sys_100_200) =
      [listen_22_record, listen_80_record, listen_443_record] :=
  ⟨((collect_all_sockets_reverse_order inet_ntop6_unused
      (main_default_protocols opts_zero)).1 sys_100_200).trans (by decide), by decide⟩

/-! ## Unnamed UNIX sockets -/

/-- No two entries of the final list agree on the identity key. -/
theorem collect_all_sockets_pairwise (inet_ntop6 : in6_addr → String) (sys : pid_listing)
    (opts : ss_options_t) :
    (collect_all_sockets inet_ntop6 sys opts).Pairwise
      (fun a b => identity_key a ≠ identity_key b) := by
  rw [collect_all_sockets_eq]
  exact collect_records_pairwise opts _ [] List.Pairwise.nil

/-- Among entries with pairwise different keys at most one satisfies a test
that fixes the key. -/
theorem countP_le_one_of_key (list : List ss_sock_info_t)
    (k : ss_proto_t × ss_family_t × Nat × Nat × String × String)
    (q : ss_sock_info_t → Bool)
    (hpw : list.Pairwise (fun a b => identity_key a ≠ identity_key b))
    (hk : ∀ e ∈ list, q e = true → identity_key e = k) :
    list.countP q ≤ 1 := by
  induction list with
  | nil => simp
  | cons x rest ih =>
    rw [List.pairwise_cons] at hpw
    have ihr := ih hpw.2 (fun e he => hk e (List.mem_cons_of_mem _ he))
    by_cases hx : q x = true
    · have hkx := hk x (List.mem_cons_self _ _) hx
      have hzero : rest.countP q = 0 := by
        rw [List.countP_eq_zero]
        intro e he hqe
        have hke := hk e (List.mem_cons_of_mem _ he) hqe
        exact hpw.1 e he (by rw [hkx, hke])
      rw [List.countP_cons_of_pos _ _ hx, hzero]
    · rw [List.countP_cons_of_neg _ _ hx]
      exact ihr

/-- A test that implies one of two others counts at most as both together. -/
theorem countP_le_add_of_or (list : List ss_sock_info_t) (q qa qb : ss_sock_info_t → Bool)
    (h : ∀ e ∈ list, q e = true → qa e = true ∨ qb e = true) :
    list.countP q ≤ list.countP qa + list.countP qb := by
  induction list with
  | nil => simp
  | cons x rest ih =>
    have ihr := ih (fun e he => h e (List.mem_cons_of_mem _ he))
    by_cases hx : q x = true
    · rw [List.countP_cons_of_pos _ _ hx]
      rcases h x (List.mem_cons_self _ _) hx with ha | hb
      · rw [List.countP_cons_of_pos _ _ ha]
        have : List.countP qb rest ≤ List.countP qb (x :: rest) := by
          rw [List.countP_cons]
          omega
        omega
      · rw [List.countP_cons_of_pos (l := rest) (a := x) qb hb]
        have : List.countP qa rest ≤ List.countP qa (x :: rest) := by
          rw [List.countP_cons]
          omega
        omega
    · rw [List.countP_cons_of_neg _ _ hx]
      have : List.countP qa rest ≤ List.countP qa (x :: rest) := by
        rw [List.countP_cons]
        omega
      have : List.countP qb rest ≤ List.countP qb (x :: rest) := by
        rw [List.countP_cons]
        omega
      omega

/-- An entry of the final list with a UNIX protocol and no path has the key
(protocol, UNIX, 0, 0, `*`, remote_addr), with `remote_addr` one of `[connected]`
and `*`. -/
theorem unnamed_unix_key (inet_ntop6 : in6_addr → String) (sys : pid_listing)
    (opts : ss_options_t) (r : ss_sock_info_t)
    (hr : r ∈ collect_all_sockets inet_ntop6 sys opts)
    (hp : r.protocol = SS_PROTO_UNIX_STREAM ∨ r.protocol = SS_PROTO_UNIX_DGRAM)
    (hu : r.unix_path = "") :
    identity_key r = (r.protocol, SS_FAMILY_UNIX, 0, 0, "*", r.remote_addr) ∧
    (r.remote_addr = "[connected]" ∨ r.remote_addr = "*") := by
  obtain ⟨p, _, e, _, s, hdec, name, hrs⟩ := mem_collect_all_sockets inet_ntop6 sys opts r hr
  obtain ⟨_, _, hc⟩ := decode_socket_cases inet_ntop6 p.pid e.si s hdec
  have hps : s.protocol = r.protocol := by rw [hrs]
  have hus : s.unix_path = r.unix_path := by rw [hrs]
  rcases hc with ⟨_, ⟨_, ht, _⟩ | ⟨_, ht, _⟩⟩ | ⟨_, hf, _, _, hl, hrp, hstar, hrem⟩
  · rw [hps] at ht
    rcases hp with hp | hp <;> rw [hp] at ht <;> exact absurd ht (by decide)
  · rw [hps] at ht
    rcases hp with hp | hp <;> rw [hp] at ht <;> exact absurd ht (by decide)
  · have hla := hstar (by rw [hus, hu])
    rw [hrs]
    simp only [identity_key, hf, hl, hrp, hla]
    exact ⟨trivial, hrem⟩

/-- C20: for every scan and each of the protocols UNIX_STREAM and UNIX_DGRAM, the
final list holds at most one record of that protocol with empty `unix_path` and
`remote_addr = [connected]`, at most one with empty `unix_path` and
`remote_addr = *`, and so at most two with empty `unix_path`, however many
unnamed UNIX sockets were decoded. -/
theorem unnamed_unix_records_collapse (inet_ntop6 : in6_addr → String) (sys : pid_listing)
    (opts : ss_options_t) (proto : ss_proto_t)
    (hproto : proto = SS_PROTO_UNIX_STREAM ∨ proto = SS_PROTO_UNIX_DGRAM) :
    (collect_all_sockets inet_ntop6 sys opts).countP
      (fun r => decide (r.protocol = proto ∧ r.unix_path = "" ∧
        r.remote_addr = "[connected]")) ≤ 1 ∧
    (collect_all_sockets inet_ntop6 sys opts).countP
      (fun r => decide (r.protocol = proto ∧ r.unix_path = "" ∧ r.remote_addr = "*")) ≤ 1 ∧
    (collect_all_sockets inet_ntop6 sys opts).countP
      (fun r => decide (r.protocol = proto ∧ r.unix_path = "")) ≤ 2 := by
  have hpw := collect_all_sockets_pairwise inet_ntop6 sys opts
  have hkey : ∀ (rem : String), ∀ e ∈ collect_all_sockets inet_ntop6 sys opts,
      decide (e.protocol = proto ∧ e.unix_path = "" ∧ e.remote_addr = rem) = true →
      identity_key e = (proto, SS_FAMILY_UNIX, 0, 0, "*", rem) := by
    intro rem e he hq
    simp only [decide_eq_true_eq] at hq
    obtain ⟨hp, hu, hrem⟩ := hq
    have := (unnamed_unix_key inet_ntop6 sys opts e he (by rw [hp]; exact hproto) hu).1
    rw [this, hp, hrem]
  have h1 := countP_le_one_of_key _ _ _ hpw (hkey "[connected]")
  have h2 := countP_le_one_of_key _ _ _ hpw (hkey "*")
  refine ⟨h1, h2, ?_⟩
  have hsum := countP_le_add_of_or (collect_all_sockets inet_ntop6 sys opts)
    (fun r => decide (r.protocol = proto ∧ r.unix_path = ""))
    (fun r => decide (r.protocol = proto ∧ r.unix_path = "" ∧ r.remote_addr = "[connected]"))
    (fun r => decide (r.protocol = proto ∧ r.unix_path = "" ∧ r.remote_addr = "*"))
    (by
      intro e he hq
      simp only [decide_eq_true_eq] at hq ⊢
      obtain ⟨hp, hu⟩ := hq
      rcases (unnamed_unix_key inet_ntop6 sys opts e he (by rw [hp]; exact hproto) hu).2
        with hr | hr
      · exact Or.inl ⟨hp, hu, hr⟩
      · exact Or.inr ⟨hp, hu, hr⟩)
  omega

/-- Witness of C20: four unnamed UNIX stream sockets are decoded, two records
remain. -/
theorem unnamed_unix_records_collapse_witness :
    ((collect_all_sockets inet_ntop6_unused sys_300 { opts_zero with show_unix := true }).countP
      (fun r => decide (r.protocol = SS_PROTO_UNIX_STREAM ∧ r.unix_path = "" ∧
        r.remote_addr = "[connected]")) ≤ 1 ∧
    (collect_all_sockets inet_ntop6_unused sys_300 { opts_zero with show_unix := true }).countP
      (fun r => decide (r.protocol = SS_PROTO_UNIX_STREAM ∧ r.unix_path = "" ∧
        r.remote_addr = "*")) ≤ 1 ∧
    (collect_all_sockets inet_ntop6_unused sys_300 { opts_zero with show_unix := true }).countP
      (fun r => decide (r.protocol = SS_PROTO_UNIX_STREAM ∧ r.unix_path = "")) ≤ 2) ∧
    (all_records inet_ntop6_unused sys_300).length = 4 ∧
    (collect_all_sockets inet_ntop6_unused sys_300
      { opts_zero with show_unix := true }).length = 2 :=
  ⟨unnamed_unix_records_collapse inet_ntop6_unused sys_300 { opts_zero with show_unix := true }
      SS_PROTO_UNIX_STREAM (Or.inl rfl),
   by decide, by decide⟩

/-! ## `ss_proc.c` -/

/-- The fallback loop ends with the value at the first usable offset, or with
the port it started from when no offset is usable. -/
theorem fallback_scan_eq (bytes : Nat → Fin 256) (ret : Int) (local_port : Nat)
    (offs : List Nat) :
    fallback_scan bytes ret local_port offs =
      match offs.find? (usable_offset bytes ret) with
      | some off => read_be16 bytes off
      | none => local_port := by
  induction offs with
  | nil => rfl
  | cons off rest ih =>
    unfold fallback_scan
    by_cases h1 : (off : Int) + 2 > ret
    · have hu : ¬ (usable_offset bytes ret off = true) := by
        simp only [usable_offset, decide_eq_true_eq]
        omega
      rw [if_pos h1, ih, List.find?_cons_of_neg _ hu]
    · rw [if_neg h1]
      by_cases h2 : read_be16 bytes off > 0 ∧ read_be16 bytes off < 65535
      · have hu : usable_offset bytes ret off = true := by
          simp only [usable_offset, decide_eq_true_eq]
          exact ⟨by omega, h2.1, h2.2⟩
        simp only [h2, and_self, if_true]
        rw [List.find?_cons_of_pos _ hu]
      · have hu : ¬ (usable_offset bytes ret off = true) := by
          simp only [usable_offset, decide_eq_true_eq]
          intro h
          exact h2 ⟨h.2.1, h.2.2⟩
        simp only [h2, if_false]
        rw [ih, List.find?_cons_of_neg _ hu]

/-- A readable primary value strictly between 0 and 65535 is the port. -/
theorem recover_port_primary (bytes : Nat → Fin 256) (ret : Int)
    (hret : ret > 0x10e) (hlo : 0 < read_be16 bytes 0x10c)
    (hhi : read_be16 bytes 0x10c < 65535) :
    recover_port bytes ret = some (read_be16 bytes 0x10c) := by
  unfold recover_port
  have hn : ¬ (read_be16 bytes 0x10c = 0 ∨ read_be16 bytes 0x10c ≥ 65535) := by omega
  simp only [hret, if_true, hn, if_false]

/-- A 16-bit value is at most 65535. -/
theorem read_be16_le (bytes : Nat → Fin 256) (off : Nat) : read_be16 bytes off ≤ 65535 := by
  unfold read_be16
  have h1 := (bytes off).isLt
  have h2 := (bytes (off + 1)).isLt
  omega

/-- Without such a primary value the port is the value at the first usable
fallback offset, and the descriptor is discarded when there is none. -/
theorem recover_port_fallback (bytes : Nat → Fin 256) (ret : Int)
    (h : ¬ (ret > 0x10e ∧ 0 < read_be16 bytes 0x10c ∧ read_be16 bytes 0x10c < 65535)) :
    recover_port bytes ret =
      (fallback_offsets.find? (usable_offset bytes ret)).map (read_be16 bytes) := by
  unfold recover_port
  have hle := read_be16_le bytes 0x10c
  have hbad : (if ret > 0x10e then read_be16 bytes 0x10c else 0) = 0 ∨
      (if ret > 0x10e then read_be16 bytes 0x10c else 0) ≥ 65535 := by
    by_cases hr : ret > 0x10e
    · rw [if_pos hr]
      have : ¬ (0 < read_be16 bytes 0x10c ∧ read_be16 bytes 0x10c < 65535) :=
        fun hh => h ⟨hr, hh⟩
      omega
    · rw [if_neg hr]
      exact Or.inl rfl
  simp only [hbad, if_true]
  rw [fallback_scan_eq]
  cases hf : fallback_offsets.find? (usable_offset bytes ret) with
  | none =>
    simp only [Option.map_none']
    rw [if_pos hbad]
  | some off =>
    have hu := List.find?_some hf
    simp only [usable_offset, decide_eq_true_eq] at hu
    simp only [Option.map_some']
    rw [if_neg (by omega)]

/-- C12: in the port-recovery step of `ss_proc`, for every buffer and returned
length `ret`: if the big-endian 16-bit value at offset `0x10c` is readable
(`ret > 0x10e`) and lies strictly between 0 and 65535, it is the port; otherwise
the port is the value at the first offset of the list `0x10a, 0x10e, 0x110,
0x108` whose two bytes lie within the first `ret` bytes and whose big-endian
value lies strictly between 0 and 65535, and the descriptor is discarded when
there is no such offset. Hence every recovered port is in `1..65534` and is the
value read at one of these five offsets, within the first `ret` bytes; the
result depends on the buffer through the bytes at these five offsets only; and
the port of every observation handed to the port map is such a recovered
port. -/
theorem recover_port_spec (bytes : Nat → Fin 256) (ret : Int) :
    (ret > 0x10e → 0 < read_be16 bytes 0x10c → read_be16 bytes 0x10c < 65535 →
      recover_port bytes ret = some (read_be16 bytes 0x10c)) ∧
    (¬ (ret > 0x10e ∧ 0 < read_be16 bytes 0x10c ∧ read_be16 bytes 0x10c < 65535) →
      recover_port bytes ret =
        (([0x10a, 0x10e, 0x110, 0x108] : List Nat).find? (fun (off : Nat) =>
          decide ((off : Int) + 2 ≤ ret ∧ 0 < read_be16 bytes off ∧
            read_be16 bytes off < 65535))).map (read_be16 bytes)) ∧
    (∀ p : Nat, recover_port bytes ret = some p →
      1 ≤ p ∧ p ≤ 65534 ∧
      ∃ off ∈ ([0x10c, 0x10a, 0x10e, 0x110, 0x108] : List Nat),
        (off : Int) + 2 ≤ ret ∧ p = read_be16 bytes off) ∧
    (∀ bytes' : Nat → Fin 256,
      (∀ off ∈ ([0x10c, 0x10a, 0x10e, 0x110, 0x108] : List Nat),
        bytes' off = bytes off ∧ bytes' (off + 1) = bytes (off + 1)) →
      recover_port bytes' ret = recover_port bytes ret) ∧
    (∀ (pid : Int) (name : String) (e : proc_fd_entry) (o : observation),
      e.si_buf = bytes → e.ret = ret → observe_fd pid name e = some o →
      recover_port bytes ret = some o.port ∧ 1 ≤ o.port ∧ o.port ≤ 65534) := by
  have hprov : ∀ p : Nat, recover_port bytes ret = some p →
      1 ≤ p ∧ p ≤ 65534 ∧
      ∃ off ∈ ([0x10c, 0x10a, 0x10e, 0x110, 0x108] : List Nat),
        (off : Int) + 2 ≤ ret ∧ p = read_be16 bytes off := by
    intro p hp
    by_cases hc : ret > 0x10e ∧ 0 < read_be16 bytes 0x10c ∧ read_be16 bytes 0x10c < 65535
    · rw [recover_port_primary bytes ret hc.1 hc.2.1 hc.2.2] at hp
      simp only [Option.some.injEq] at hp
      subst hp
      refine ⟨hc.2.1, by omega, 0x10c, by simp, by omega, rfl⟩
    · rw [recover_port_fallback bytes ret hc, Option.map_eq_some'] at hp
      obtain ⟨off, hfind, hval⟩ := hp
      have hu := List.find?_some hfind
      have hmem := List.mem_of_find?_eq_some hfind
      simp only [usable_offset, decide_eq_true_eq] at hu
      subst hval
      refine ⟨hu.2.1, by omega, off, List.mem_cons_of_mem _ hmem, hu.1, rfl⟩
  refine ⟨recover_port_primary bytes ret, recover_port_fallback bytes ret, hprov, ?_, ?_⟩
  · intro bytes' hagree
    have e : ∀ off ∈ ([0x10c, 0x10a, 0x10e, 0x110, 0x108] : List Nat),
        read_be16 bytes' off = read_be16 bytes off := by
      intro off hoff
      unfold read_be16
      rw [(hagree off hoff).1, (hagree off hoff).2]
    have e0 := e 0x10c (by simp)
    have e1 := e 0x10a (by simp)
    have e2 := e 0x10e (by simp)
    have e3 := e 0x110 (by simp)
    have e4 := e 0x108 (by simp)
    simp only [recover_port, fallback_offsets, fallback_scan, e0, e1, e2, e3, e4]
  · intro pid name e o hb hr ho
    unfold observe_fd at ho
    split_ifs at ho
    rw [hb, hr] at ho
    cases hrec : recover_port bytes ret with
    | none => rw [hrec] at ho; simp at ho
    | some p =>
      rw [hrec] at ho
      simp only [Option.some.injEq] at ho
      subst ho
      obtain ⟨h1, h2, _⟩ := hprov p hrec
      exact ⟨rfl, h1, h2⟩

/-- Witness of C12: port 22 found at the primary offset, port 80 found at the
fallback offset `0x10e`, and a buffer too short for every offset discarded. -/
theorem recover_port_spec_witness :
    recover_port (buf_with 0x10c 0 22) 792 = some 22 ∧
    recover_port (buf_with 0x10e 0 80) 792 = some 80 ∧
    recover_port (buf_with 0x10c 0 22) 200 = none ∧
    (∃ off ∈ ([0x10c, 0x10a, 0x10e, 0x110, 0x108] : List Nat),
      (off : Int) + 2 ≤ 792 ∧ 80 = read_be16 (buf_with 0x10e 0 80) off) :=
  ⟨((recover_port_spec (buf_with 0x10c 0 22) 792).1 (by decide) (by decide) (by decide)).trans
      (by decide),
   ((recover_port_spec (buf_with 0x10e 0 80) 792).2.1 (by decide)).trans (by decide),
   ((recover_port_spec (buf_with 0x10c 0 22) 200).2.1 (by decide)).trans (by decide),
   ((recover_port_spec (buf_with 0x10e 0 80) 792).2.2.1 80 (by decide)).2.2⟩

/-- Storing two runs of observations one after the other is storing their
concatenation. -/
theorem store_observations_append (a b : List observation) :
    ∀ port_map : Nat → port_proc_t,
      store_observations port_map (a ++ b) =
        store_observations (store_observations port_map a) b := by
  induction a with
  | nil => intro port_map; rfl
  | cons o rest ih =>
    intro port_map
    show store_observations (store_observation port_map o) (rest ++ b) = _
    rw [ih]
    rfl

/-- The store step touches the entry of the observed port only. -/
theorem store_observation_other (port_map : Nat → port_proc_t) (o : observation) (p : Nat)
    (hp : p ≠ o.port) : store_observation port_map o p = port_map p := by
  unfold store_observation
  split_ifs
  · exact Function.update_noteq hp _ _
  · rfl

/-- The store step on the entry of the observed port: overwritten when it is
empty or owned by launchd while the observation is not from launchd. -/
theorem store_observation_same (port_map : Nat → port_proc_t) (o : observation) :
    store_observation port_map o o.port =
      if (port_map o.port).port = 0 ∨
          ((port_map o.port).is_launchd = true ∧ o.name ≠ "launchd") then entry_of o
      else port_map o.port := by
  unfold store_observation entry_of
  simp only [decide_eq_false_iff_not]
  split_ifs
  · exact Function.update_same _ _ _
  · rfl

/-- Looking for the first match in a list with one more element at its end. -/
theorem find?_append_singleton (q : observation → Bool) (l : List observation)
    (a : observation) :
    (l ++ [a]).find? q =
      match l.find? q with
      | some o => some o
      | none => if q a = true then some a else none := by
  induction l with
  | nil =>
    cases hq : q a <;> simp [List.find?_cons, hq]
  | cons x rest ih =>
    cases hx : q x
    · simp only [List.cons_append, List.find?_cons, hx]
      exact ih
    · simp only [List.cons_append, List.find?_cons, hx]

/-- An observation for another port does not change the owner. -/
theorem port_owner_append_other (p : Nat) (l : List observation) (a : observation)
    (hp : p ≠ a.port) : port_owner p (l ++ [a]) = port_owner p l := by
  have h1 : ¬ (for_port_not_launchd p a = true) := by
    simp only [for_port_not_launchd, decide_eq_true_eq]
    intro h
    exact hp h.1.symm
  have h2 : ¬ (for_port p a = true) := by
    simp only [for_port, decide_eq_true_eq]
    intro h
    exact hp h.symm
  unfold port_owner
  rw [find?_append_singleton, find?_append_singleton, if_neg h1, if_neg h2]
  cases l.find? (for_port_not_launchd p) with
  | some o => rfl
  | none =>
    simp only
    cases l.find? (for_port p) <;> rfl

/-- The owner is for the port, and is either the first observation not from
launchd or, when there is none, the first observation, which is from launchd. -/
theorem port_owner_some (p : Nat) (l : List observation) (o : observation)
    (h : port_owner p l = some o) :
    o.port = p ∧
    (l.find? (for_port_not_launchd p) = some o ∧ o.name ≠ "launchd" ∨
     l.find? (for_port_not_launchd p) = none ∧
       l.find? (for_port p) = some o ∧ o.name = "launchd") := by
  unfold port_owner at h
  cases h1 : l.find? (for_port_not_launchd p) with
  | some o1 =>
    rw [h1] at h
    simp only [Option.some.injEq] at h
    subst h
    have := List.find?_some h1
    simp only [for_port_not_launchd, decide_eq_true_eq] at this
    exact ⟨this.1, Or.inl ⟨rfl, this.2⟩⟩
  | none =>
    rw [h1] at h
    simp only at h
    have h2 := List.find?_some h
    simp only [for_port, decide_eq_true_eq] at h2
    refine ⟨h2, Or.inr ⟨rfl, h, ?_⟩⟩
    by_contra hn
    rw [List.find?_eq_none] at h1
    have := h1 o (List.mem_of_find?_eq_some h)
    simp only [for_port_not_launchd, decide_eq_true_eq, not_and, not_not] at this
    exact hn (this h2)

/-- No owner means no observation for the port. -/
theorem port_owner_none (p : Nat) (l : List observation) (h : port_owner p l = none) :
    l.find? (for_port_not_launchd p) = none ∧ l.find? (for_port p) = none := by
  unfold port_owner at h
  cases h1 : l.find? (for_port_not_launchd p) with
  | some o1 => rw [h1] at h; simp at h
  | none => rw [h1] at h; exact ⟨rfl, h⟩

/-- After any observations with ports in `1..65534` the entry of a port is the
entry of its owner, and empty when the port has none. -/
theorem store_observations_owner (obs : List observation)
    (hports : ∀ o ∈ obs, 1 ≤ o.port ∧ o.port ≤ 65534) (p : Nat) :
    store_observations (fun _ => port_proc_zero) obs p =
      match port_owner p obs with
      | some o => entry_of o
      | none => port_proc_zero := by
  induction obs using List.reverseRecOn with
  | nil => rfl
  | append_singleton l a ih =>
    have hl : ∀ o ∈ l, 1 ≤ o.port ∧ o.port ≤ 65534 :=
      fun o ho => hports o (List.mem_append_left _ ho)
    have ha : 1 ≤ a.port := (hports a (List.mem_append_right _ (List.mem_singleton_self a))).1
    have ih := ih hl
    rw [store_observations_append]
    show store_observation (store_observations (fun _ => port_proc_zero) l) a p = _
    by_cases hp : p = a.port
    · subst hp
      have hfp : for_port a.port a = true := by simp [for_port]
      rw [store_observation_same, ih]
      cases ho : port_owner a.port l with
      | none =>
        obtain ⟨h1, h2⟩ := port_owner_none _ _ ho
        simp only [port_proc_zero, true_or, if_true]
        unfold port_owner
        rw [find?_append_singleton, find?_append_singleton, h1, h2]
        simp only [hfp, if_true]
        cases for_port_not_launchd a.port a <;> rfl
      | some o' =>
        obtain ⟨hport, hcase⟩ := port_owner_some _ _ _ ho
        have hne : (entry_of o').port ≠ 0 := by
          simp only [entry_of, hport]
          omega
        rcases hcase with ⟨h1, hnl⟩ | ⟨h1, h2, hla⟩
        · have hil : (entry_of o').is_launchd = false := by
            simp only [entry_of, decide_eq_false_iff_not]
            exact hnl
          simp only [hne, hil, false_or, Bool.false_eq_true, false_and, if_false]
          unfold port_owner
          rw [find?_append_singleton, h1]
        · have hil : (entry_of o').is_launchd = true := by
            simp only [entry_of, decide_eq_true_eq]
            exact hla
          by_cases hn : a.name = "launchd"
          · have hq : ¬ (for_port_not_launchd a.port a = true) := by
              simp [for_port_not_launchd, hn]
            simp only [hne, hil, hn, false_or, true_and, ne_eq, not_true_eq_false, if_false]
            unfold port_owner
            rw [find?_append_singleton, find?_append_singleton, h1, h2]
            simp [hq]
          · have hq : for_port_not_launchd a.port a = true := by
              simp [for_port_not_launchd, hn]
            simp only [hne, hil, hn, false_or, true_and, ne_eq, not_false_eq_true, if_true]
            unfold port_owner
            rw [find?_append_singleton, h1]
            simp only [hq, if_true]
    · rw [store_observation_other _ _ _ hp, ih, port_owner_append_other _ _ _ hp]

/-- The ports printed from a list of indices are the indices with a non-empty
entry, in the order of the list. -/
theorem output_ports_eq_filter (port_map : Nat → port_proc_t)
    (hinv : ∀ p : Nat, (port_map p).port ≠ 0 → (port_map p).port = p) (l : List Nat) :
    (l.filterMap (fun port =>
        if (port_map port).port > 0 then
          some ((port_map port).port, (port_map port).cmd, (port_map port).pid,
            (port_map port).fd)
        else none)).map (fun line => line.1) =
      l.filter (fun port => decide ((port_map port).port > 0)) := by
  induction l with
  | nil => rfl
  | cons x rest ih =>
    by_cases hx : (port_map x).port > 0
    · have hxp : (port_map x).port = x := hinv x (by omega)
      have hx0 : x > 0 := by omega
      rw [List.filterMap_cons, List.filter_cons]
      simp only [hx, if_true, decide_True, List.map_cons, ih, hxp, hx0]
    · rw [List.filterMap_cons, List.filter_cons]
      simp only [hx, if_false, decide_False, ih]
      rfl

/-- C19: after the store step of `ss_proc` has handled any sequence of
observations with ports in `1..65534`, starting from the zeroed map, the entry
of every port `p` is the one written for the first observation for `p` whose
process name is not `launchd` if there is one, otherwise for the first
observation for `p`, and is empty when `p` was never observed. An entry owned by
a process other than launchd is never overwritten; every non-empty entry at
index `p` has its port field equal to `p`; and the ports printed by the output
loop are strictly increasing, so each port is printed at most once. -/
theorem port_map_owner (obs : List observation)
    (hports : ∀ o ∈ obs, 1 ≤ o.port ∧ o.port ≤ 65534) :
    (∀ p : Nat,
      store_observations (fun _ => port_proc_zero) obs p =
        match port_owner p obs with
        | some o => entry_of o
        | none => port_proc_zero) ∧
    (∀ (port_map : Nat → port_proc_t) (o : observation),
      (port_map o.port).port ≠ 0 → (port_map o.port).is_launchd = false →
      store_observation port_map o = port_map) ∧
    (∀ p : Nat, (store_observations (fun _ => port_proc_zero) obs p).port ≠ 0 →
      (store_observations (fun _ => port_proc_zero) obs p).port = p) ∧
    ((output_lines (store_observations (fun _ => port_proc_zero) obs)).map
      (fun line => line.1)).Pairwise (fun a b => a < b) := by
  have hown := store_observations_owner obs hports
  have hinv : ∀ p : Nat, (store_observations (fun _ => port_proc_zero) obs p).port ≠ 0 →
      (store_observations (fun _ => port_proc_zero) obs p).port = p := by
    intro p hne
    rw [hown p] at hne ⊢
    cases ho : port_owner p obs with
    | none =>
      rw [ho] at hne
      exact absurd rfl hne
    | some o =>
      simp only
      exact (port_owner_some p obs o ho).1
  refine ⟨hown, ?_, hinv, ?_⟩
  · intro port_map o hne hnl
    unfold store_observation
    rw [if_neg]
    rintro (h | ⟨h, _⟩)
    · exact hne h
    · rw [hnl] at h
      exact absurd h (by decide)
  · unfold output_lines
    rw [output_ports_eq_filter _ hinv]
    exact (List.pairwise_lt_range' 1 65535).filter _

/-- Witness of C19: port 22 seen in launchd, then sshd, then inetd belongs to
sshd; port 80 seen twice in launchd belongs to the first sighting; port 443 was
not seen. -/
theorem port_map_owner_witness :
    store_observations (fun _ => port_proc_zero) sample_observations 22 =
      { port := 22, pid := 100, fd := 4, cmd := "sshd", is_launchd := false } ∧
    store_observations (fun _ => port_proc_zero) sample_observations 80 =
      { port := 80, pid := 1, fd := 6, cmd := "launchd", is_launchd := true } ∧
    store_observations (fun _ => port_proc_zero) sample_observations 443 = port_proc_zero :=
  ⟨((port_map_owner sample_observations (by decide)).1 22).trans (by decide),
   ((port_map_owner sample_observations (by decide)).1 80).trans (by decide),
   ((port_map_owner sample_observations (by decide)).1 443).trans (by decide)⟩

/-! ## Descriptor attribution -/

/-- Every record of the final list carries the pid of a listed process, and
`fd = 0`: the decoder stores the pid and leaves `fd` as `sock = {0}` set it. -/
theorem collect_all_sockets_pid_fd (inet_ntop6 : in6_addr → String) (sys : pid_listing)
    (opts : ss_options_t) (r : ss_sock_info_t)
    (hr : r ∈ collect_all_sockets inet_ntop6 sys opts) :
    r.fd = 0 ∧ ∃ p ∈ sys.procs, r.pid = p.pid := by
  obtain ⟨p, hp, e, _, s, hdec, name, hrs⟩ := mem_collect_all_sockets inet_ntop6 sys opts r hr
  obtain ⟨hpid, hfd, _⟩ := decode_socket_cases inet_ntop6 p.pid e.si s hdec
  rw [hrs]
  exact ⟨hfd, p, hp, hpid⟩

/-! ## Listening-only and show-all -/

/-- C21: for every record and config, (1) when `show_listening` is set the
decision of `should_include` does not depend on `show_all`, and a TCP record
that is not in state LISTEN is excluded even with `show_all` set; (2)
`should_include` is monotone in `show_all`: a record included with `show_all`
unset is included with `show_all` set. -/
theorem should_include_show_all (r : ss_sock_info_t) (c : ss_options_t) :
    (c.show_listening = true →
      (∀ b : Bool, should_include r { c with show_all := b } = should_include r c) ∧
      (r.protocol = SS_PROTO_TCP → r.state ≠ SS_TCP_LISTEN →
        should_include r { c with show_all := true } = false)) ∧
    (should_include r { c with show_all := false } = true →
      should_include r { c with show_all := true } = true) := by
  refine ⟨?_, ?_⟩
  · intro hl
    refine ⟨?_, ?_⟩
    · intro b
      rw [Bool.eq_iff_iff, should_include_iff, should_include_iff, protocol_gate_iff,
        protocol_gate_iff, listening_gate_iff, listening_gate_iff, default_state_gate_iff,
        default_state_gate_iff, family_gate_iff, family_gate_iff]
      simp [hl]
    · intro hp hs
      rw [Bool.eq_false_iff]
      intro h
      have hg := (listening_gate_iff r _).mp ((should_include_iff r _).mp h).2.1
      exact hs ((hg hl).1 hp)
  · intro h
    rw [should_include_iff, protocol_gate_iff, listening_gate_iff, default_state_gate_iff,
      family_gate_iff] at h ⊢
    obtain ⟨h1, h2, _, h4⟩ := h
    refine ⟨h1, h2, ?_, h4⟩
    intro ha
    simp at ha

/-- Witness of C21: a TCP record in SYN_SENT under `-t -l` is excluded with and
without `-a`; an ESTABLISHED TCP record included under `-t` stays included
under `-t -a`. -/
theorem should_include_show_all_witness :
    ((∀ b : Bool,
        should_include { tcp_established_record with state := SS_TCP_SYN_SENT }
          { ({ opts_zero with show_tcp := true, show_listening := true } : ss_options_t) with
            show_all := b } =
        should_include { tcp_established_record with state := SS_TCP_SYN_SENT }
          { opts_zero with show_tcp := true, show_listening := true }) ∧
      should_include { tcp_established_record with state := SS_TCP_SYN_SENT }
        { ({ opts_zero with show_tcp := true, show_listening := true } : ss_options_t) with
          show_all := true } = false) ∧
    should_include tcp_established_record
      { ({ opts_zero with show_tcp := true } : ss_options_t) with show_all := true } = true :=
  ⟨⟨((should_include_show_all { tcp_established_record with state := SS_TCP_SYN_SENT }
        { opts_zero with show_tcp := true, show_listening := true }).1 rfl).1,
     ((should_include_show_all { tcp_established_record with state := SS_TCP_SYN_SENT }
        { opts_zero with show_tcp := true, show_listening := true }).1 rfl).2 rfl (by decide)⟩,
   (should_include_show_all tcp_established_record
      { opts_zero with show_tcp := true }).2 (by decide)⟩

end Myiosss
